import Mathlib

/-!
Verification of the recurrence/due-date engine of the Chores Manager
Home Assistant integration.

The development shallowly embeds the Python source:

* `custom_components/chores_manager/utils/date_utils.py`
  (`parse_date`, `get_next_occurrence_of_weekday`,
  `get_next_occurrence_of_monthday`, `parse_active_days`);
* `custom_components/chores_manager/utils/frequency_calculator.py`
  (class `FrequencyCalculator`);
* `custom_components/chores_manager/sensor.py`
  (`ChoresOverviewSensor.calculate_next_due_date`, the per-task
  due/completed classification and the streak loop of
  `async_update.get_data`);
* `custom_components/chores_manager/database.py`
  (`force_chore_due`, `update_chore_completion_status`);
* `custom_components/chores_manager/db/chores.py`
  (`reset_chore`, `_reset_subtask_completions_today`,
  `_calculate_frequency_days`).

Python `datetime.date` values are modelled by the `PDate` structure
(proleptic Gregorian year/month/day), `datetime.datetime` by `PDateTime`
(a date plus a time of day).  Instants that the store keeps as ISO-8601
strings are modelled structurally as `PDateTime` values: for every
instant the program itself writes (via `datetime.isoformat()`), parsing
the stored string with `parse_date` returns that same instant, so the
structural model is faithful for program-written data.  SQLite string
comparisons on uniformly formatted `YYYY-MM-DDTHH:MM:SS[.ffffff]`
values coincide with chronological comparison, which is how comparisons
of stored instants are modelled.  The string-level behaviour of
`parse_date` itself is modelled separately (`parseDate` below) for the
claims that concern it.

Python exceptions are modelled with `Except`: a raised `ValueError`,
`ZeroDivisionError` or `UnboundLocalError` is an `.error` result, and
the unbounded `while True` loops of `sensor.py` take a fuel parameter,
with `.error .fuelExhausted` marking that the loop has not finished
within the given fuel (for genuinely divergent inputs this holds for
every fuel).  The implicit clock (`datetime.now()` / `date.today()`) is
threaded as an explicit `now : PDateTime` parameter; a single snapshot
of the clock is used per operation, matching the spec's design notes.
-/

namespace ChoresManager

/-- Proleptic Gregorian calendar date, modelling Python `datetime.date`. -/
structure PDate where
  year : Nat
  month : Nat
  day : Nat
deriving DecidableEq, Repr

/-- Gregorian leap-year rule, as in Python's `calendar.isleap`. -/
def isLeapYear (y : Nat) : Bool :=
  y % 4 = 0 && (y % 100 != 0 || y % 400 = 0)

/-- Number of days of month `m` of year `y`, as `calendar.monthrange(y, m)[1]`. -/
def daysInMonth (y m : Nat) : Nat :=
  if m = 2 then (if isLeapYear y then 29 else 28)
  else if m = 4 ∨ m = 6 ∨ m = 9 ∨ m = 11 then 30
  else 31

/-- The dates Python's `datetime.date` can represent (year bounds aside). -/
def PDate.valid (d : PDate) : Prop :=
  1 ≤ d.month ∧ d.month ≤ 12 ∧ 1 ≤ d.day ∧ d.day ≤ daysInMonth d.year d.month

instance (d : PDate) : Decidable d.valid := by
  unfold PDate.valid; infer_instance

/-- Injective key giving the chronological order of valid dates
(month and day both fit below 32, so this is the lexicographic order). -/
def PDate.key (d : PDate) : Nat :=
  (d.year * 32 + d.month) * 32 + d.day

instance : Preorder PDate where
  le a b := a.key ≤ b.key
  lt a b := a.key < b.key
  le_refl a := Nat.le_refl _
  le_trans a b c := Nat.le_trans
  lt_iff_le_not_le a b := Nat.lt_iff_le_not_le

instance : DecidableRel (α := PDate) (· ≤ ·) :=
  fun a b => inferInstanceAs (Decidable (a.key ≤ b.key))
instance : DecidableRel (α := PDate) (· < ·) :=
  fun a b => inferInstanceAs (Decidable (a.key < b.key))

theorem PDate.le_def (a b : PDate) : a ≤ b ↔ a.key ≤ b.key := Iff.rfl
theorem PDate.lt_def (a b : PDate) : a < b ↔ a.key < b.key := Iff.rfl

/-- Successor day: the effect of adding `timedelta(days=1)`. -/
def PDate.nextDay (d : PDate) : PDate :=
  if d.day < daysInMonth d.year d.month then ⟨d.year, d.month, d.day + 1⟩
  else if d.month < 12 then ⟨d.year, d.month + 1, 1⟩
  else ⟨d.year + 1, 1, 1⟩

/-- Predecessor day: the effect of subtracting `timedelta(days=1)`. -/
def PDate.prevDay (d : PDate) : PDate :=
  if 1 < d.day then ⟨d.year, d.month, d.day - 1⟩
  else if 1 < d.month then ⟨d.year, d.month - 1, daysInMonth d.year (d.month - 1)⟩
  else ⟨d.year - 1, 12, 31⟩

/-- Adding `timedelta(days=n)` to a date. -/
def PDate.addDays (d : PDate) : Nat → PDate
  | 0 => d
  | n + 1 => (d.addDays n).nextDay

/-- Subtracting `timedelta(days=n)` from a date. -/
def PDate.subDays (d : PDate) : Nat → PDate
  | 0 => d
  | n + 1 => (d.subDays n).prevDay

/-- Day-of-week with Monday = 0, as Python's `date.weekday()`
(Sakamoto's congruence, shifted so that Monday is 0). -/
def pyWeekday (d : PDate) : Nat :=
  let t : List Nat := [0, 3, 2, 5, 0, 3, 5, 1, 4, 6, 2, 4]
  let y := if d.month < 3 then d.year - 1 else d.year
  (y + y / 4 - y / 100 + y / 400 + t.getD (d.month - 1) 0 + d.day + 6) % 7

theorem pyWeekday_lt_seven (d : PDate) : pyWeekday d < 7 :=
  Nat.mod_lt _ (by norm_num)

/-- Time of day, modelling the time part of Python `datetime.datetime`. -/
structure PTime where
  hour : Nat
  minute : Nat
  second : Nat
  micro : Nat
deriving DecidableEq, Repr

def PTime.midnight : PTime := ⟨0, 0, 0, 0⟩

/-- Microseconds since the start of the day. -/
def PTime.key (t : PTime) : Nat :=
  ((t.hour * 60 + t.minute) * 60 + t.second) * 1000000 + t.micro

/-- A naive-local-time instant, modelling Python `datetime.datetime`. -/
structure PDateTime where
  date : PDate
  time : PTime
deriving DecidableEq, Repr

/-- Injective key giving the chronological order of valid instants. -/
def PDateTime.key (x : PDateTime) : Nat :=
  x.date.key * 86400000000 + x.time.key

instance : Preorder PDateTime where
  le a b := a.key ≤ b.key
  lt a b := a.key < b.key
  le_refl a := Nat.le_refl _
  le_trans a b c := Nat.le_trans
  lt_iff_le_not_le a b := Nat.lt_iff_le_not_le

instance : DecidableRel (α := PDateTime) (· ≤ ·) :=
  fun a b => inferInstanceAs (Decidable (a.key ≤ b.key))
instance : DecidableRel (α := PDateTime) (· < ·) :=
  fun a b => inferInstanceAs (Decidable (a.key < b.key))

theorem PDateTime.key_le_iff (a b : PDateTime) : a ≤ b ↔ a.key ≤ b.key := Iff.rfl
theorem PDateTime.key_lt_iff (a b : PDateTime) : a < b ↔ a.key < b.key := Iff.rfl

/-- Midnight at the given date (`datetime.combine(d, datetime.min.time())`,
also `now.replace(hour=0, minute=0, second=0, microsecond=0)`). -/
def PDateTime.atMidnight (d : PDate) : PDateTime := ⟨d, PTime.midnight⟩

/-- Python's checked `date(y, m, d)` constructor: `none` models the
`ValueError` raised on an invalid combination (`datetime` years run
from 1 to 9999). -/
def mkPyDate (y m d : Nat) : Option PDate :=
  let dt : PDate := ⟨y, m, d⟩
  if 1 ≤ y ∧ y ≤ 9999 ∧ dt.valid then some dt else none

/-- Python errors distinguished by the embedding.  `fuelExhausted` is not a
Python error: it marks that a `while True` loop of `sensor.py` has not
finished within the fuel given to its model. -/
inductive PyErr where
  | valueError
  | zeroDivision
  | unboundLocal
  | fuelExhausted
deriving DecidableEq, Repr

/-- Python `dict.get(k, dflt)` on a string-keyed boolean dict (decoded
JSON object, modelled as an association list). -/
def dictGetB (m : List (String × Bool)) (k : String) (dflt : Bool) : Bool :=
  match m.find? (fun p => p.1 == k) with
  | some p => p.2
  | none => dflt

/-- Python `str.strip()`: drop leading and trailing whitespace
(modelled over the character list; the exact whitespace set matches for
ASCII whitespace). -/
def pyStrip (s : String) : String :=
  String.mk (((s.data.dropWhile Char.isWhitespace).reverse.dropWhile
    Char.isWhitespace).reverse)

/-- The weekday names used by the calculators, in `date.weekday()` order. -/
def dayNames : List String :=
  ["mon", "tue", "wed", "thu", "fri", "sat", "sun"]

/-- Python `round(num / den)` for nonnegative integers `num`, `den` with
`den ≠ 0`: division followed by round-half-to-even (the float detour of
the source is exact on the small operands the program uses). -/
def pyRoundDiv (num den : Nat) : Nat :=
  let q := num / den
  let r := num % den
  if 2 * r < den then q
  else if den < 2 * r then q + 1
  else if q % 2 = 0 then q else q + 1

/-! ### Basic calendar lemmas -/

theorem PDate.valid_mk (y m d : Nat) :
    (PDate.mk y m d).valid ↔ 1 ≤ m ∧ m ≤ 12 ∧ 1 ≤ d ∧ d ≤ daysInMonth y m :=
  Iff.rfl

theorem PDate.key_mk (y m d : Nat) :
    (PDate.mk y m d).key = (y * 32 + m) * 32 + d := rfl

theorem daysInMonth_pos (y m : Nat) : 1 ≤ daysInMonth y m := by
  unfold daysInMonth
  split <;> [skip; split] <;> first
  | (split <;> norm_num)
  | norm_num

theorem daysInMonth_le (y m : Nat) : daysInMonth y m ≤ 31 := by
  unfold daysInMonth
  split <;> [skip; split] <;> first
  | (split <;> norm_num)
  | norm_num

theorem PDate.valid_nextDay {d : PDate} (h : d.valid) : d.nextDay.valid := by
  obtain ⟨y, m, dd⟩ := d
  rw [PDate.valid_mk] at h
  unfold PDate.nextDay
  dsimp only
  have hpos2 := daysInMonth_pos y (m + 1)
  have hpos3 := daysInMonth_pos (y + 1) 1
  split
  · rw [PDate.valid_mk]; omega
  · split
    · rw [PDate.valid_mk]; omega
    · rw [PDate.valid_mk]; omega

theorem PDate.lt_nextDay {d : PDate} (h : d.valid) : d < d.nextDay := by
  obtain ⟨y, m, dd⟩ := d
  rw [PDate.valid_mk] at h
  have hdim := daysInMonth_le y m
  rw [PDate.lt_def]
  unfold PDate.nextDay
  dsimp only
  split
  · rw [PDate.key_mk, PDate.key_mk]; omega
  · split
    · rw [PDate.key_mk, PDate.key_mk]; omega
    · rw [PDate.key_mk, PDate.key_mk]; omega

theorem PDate.le_addDays {d : PDate} (h : d.valid) (n : Nat) :
    d ≤ d.addDays n ∧ (d.addDays n).valid := by
  induction n with
  | zero => exact ⟨le_refl _, h⟩
  | succ k ih =>
    refine ⟨le_trans ih.1 (le_of_lt (PDate.lt_nextDay ih.2)), PDate.valid_nextDay ih.2⟩

theorem PDate.addDays_mono {d : PDate} (h : d.valid) {a b : Nat} (hab : a ≤ b) :
    d.addDays a ≤ d.addDays b := by
  obtain ⟨k, rfl⟩ := Nat.exists_eq_add_of_le hab
  clear hab
  induction k with
  | zero => exact le_refl _
  | succ j ih =>
    have hv := (PDate.le_addDays h (a + j)).2
    exact le_trans ih (le_of_lt (PDate.lt_nextDay hv))

theorem PDate.prevDay_year_le (d : PDate) : d.prevDay.year ≤ d.year := by
  unfold PDate.prevDay
  split
  · exact le_refl _
  · split
    · exact le_refl _
    · exact Nat.sub_le _ _

theorem PDate.subDays_year_le (d : PDate) (n : Nat) :
    ∀ k, k ≤ n → (d.subDays n).year ≤ (d.subDays k).year := by
  induction n with
  | zero => intro k hk; interval_cases k; exact le_refl _
  | succ m ih =>
    intro k hk
    rcases Nat.lt_or_ge k (m + 1) with hlt | hge
    · exact le_trans (PDate.prevDay_year_le _) (ih k (by omega))
    · have : k = m + 1 := by omega
      subst this; exact le_refl _

theorem daysInMonth_twelve (y : Nat) : daysInMonth y 12 = 31 := by
  unfold daysInMonth; norm_num

theorem daysInMonth_one (y : Nat) : daysInMonth y 1 = 31 := by
  unfold daysInMonth; norm_num

theorem PDate.prevDay_valid {d : PDate} (h : d.valid) (hy : 1 ≤ d.year) :
    d.prevDay.valid ∧ d.prevDay.nextDay = d := by
  obtain ⟨y, m, dd⟩ := d
  rw [PDate.valid_mk] at h
  dsimp only at hy
  unfold PDate.prevDay
  dsimp only
  split
  · rename_i hday
    constructor
    · rw [PDate.valid_mk]; omega
    · unfold PDate.nextDay
      dsimp only
      rw [if_pos (show dd - 1 < daysInMonth y m by omega)]
      simp only [PDate.mk.injEq, true_and, and_true]
      omega
  · split
    · rename_i hday hmon
      have hpos := daysInMonth_pos y (m - 1)
      constructor
      · rw [PDate.valid_mk]; omega
      · unfold PDate.nextDay
        dsimp only
        rw [if_neg (show ¬daysInMonth y (m - 1) < daysInMonth y (m - 1) by omega),
          if_pos (show m - 1 < 12 by omega)]
        simp only [PDate.mk.injEq, true_and, and_true]
        omega
    · rename_i hday hmon
      have hm : m = 1 := by omega
      have hd : dd = 1 := by omega
      subst hm; subst hd
      constructor
      · rw [PDate.valid_mk, daysInMonth_twelve]
        omega
      · unfold PDate.nextDay
        dsimp only
        rw [if_neg (show ¬(31 : Nat) < daysInMonth (y - 1) 12 by
              rw [daysInMonth_twelve]; omega),
          if_neg (show ¬(12 : Nat) < 12 by omega)]
        simp only [PDate.mk.injEq, true_and, and_true]
        omega

theorem PDate.addDays_succ_comm (x : PDate) (j : Nat) :
    x.addDays (j + 1) = x.nextDay.addDays j := by
  induction j with
  | zero => rfl
  | succ i ih =>
    show (x.addDays (i + 1)).nextDay = (x.nextDay.addDays i).nextDay
    rw [ih]

theorem PDate.subDays_addDays {d : PDate} (h : d.valid) (n : Nat)
    (hy : 1 ≤ (d.subDays n).year) :
    (d.subDays n).valid ∧ (d.subDays n).addDays n = d := by
  induction n with
  | zero => exact ⟨h, rfl⟩
  | succ m ih =>
    have hym : 1 ≤ (d.subDays m).year :=
      le_trans hy (PDate.subDays_year_le d (m + 1) m (Nat.le_succ m))
    obtain ⟨hvm, heqm⟩ := ih hym
    obtain ⟨hvp, hnp⟩ := PDate.prevDay_valid hvm hym
    refine ⟨hvp, ?_⟩
    have step : d.subDays (m + 1) = (d.subDays m).prevDay := rfl
    rw [step, PDate.addDays_succ_comm, hnp, heqm]

/-! ### Task snapshots

A task row of the `chores` table, restricted to the fields the
recurrence engine reads.  `active_days` / `active_monthdays` hold the
decoded JSON object (`parse_active_days` turns `NULL`, a non-string or
undecodable JSON into `{}`, matching `none`/`some []` here); Python
truthiness of the dict is emptiness of the list.  `weekday` and
`monthday` are `-1` when unset (the `COALESCE` defaults of the
sensor query and the storage defaults). -/

structure Chore where
  chore_id : String
  name : String
  frequency_type : String
  frequency_days : Nat
  frequency_times : Nat
  weekday : Int
  monthday : Int
  active_days : Option (List (String × Bool))
  active_monthdays : Option (List (String × Bool))
  subtasks_period : String
  last_done : Option PDateTime
  last_done_by : Option String
deriving DecidableEq, Repr

/-- The decoded `active_days`-style dict an absent value decodes to `{}`
(`parse_active_days`). -/
def activeDict (o : Option (List (String × Bool))) : List (String × Bool) :=
  o.getD []

/-- Bounded search of `_calculate_daily` / `_calculate_multiple_weekly`:
check the current day's weekday name against the dict (absent names
default to active) and advance one day per failed check; after `fuel`
failed checks the current day is returned unchecked, exactly as the
`while iterations < max_iterations` loop does. -/
def findActiveDay (active : List (String × Bool)) : Nat → PDate → PDate
  | 0, d => d
  | n + 1, d =>
    if dictGetB active (dayNames.getD (pyWeekday d) "") true then d
    else findActiveDay active n d.nextDay

/-- Embeds `date_utils.get_next_occurrence_of_weekday` (the `after_date`
argument is always passed by the calculator). -/
def get_next_occurrence_of_weekday (weekday : Int) (after : PDate) : PDate :=
  let days_ahead := (weekday - (pyWeekday after : Int)) % 7
  let days_ahead := if days_ahead = 0 then 7 else days_ahead
  after.addDays days_ahead.toNat

/-- Embeds `date_utils.get_next_occurrence_of_monthday` (the `after_date`
argument is always passed by the calculator, and its callers guarantee
`monthday ≥ 1`). -/
def get_next_occurrence_of_monthday (monthday : Int) (after : PDate) : PDate :=
  let ny := if (after.day : Int) ≥ monthday then
      (if after.month = 12 then after.year + 1 else after.year)
    else after.year
  let nm := if (after.day : Int) ≥ monthday then
      (if after.month = 12 then 1 else after.month + 1)
    else after.month
  let dim := daysInMonth ny nm
  ⟨ny, nm, min monthday.toNat dim⟩

/-! ### The calculator of `utils/frequency_calculator.py`

`FrequencyCalculator.calculate_next_due_date` and its per-frequency
helpers.  A `ZeroDivisionError` (a zero `frequency_times` reaching
`round(7 / times)` or `round(30 / times)`) is the only way these
helpers can raise, hence the `Except` result. -/

namespace FrequencyCalculator

/-- Embeds `FrequencyCalculator._calculate_daily`. -/
def _calculate_daily (c : Chore) (last_done : PDate) : Except PyErr PDate :=
  let next_due := last_done.addDays 1
  let active := activeDict c.active_days
  if active ≠ [] then .ok (findActiveDay active 8 next_due)
  else .ok next_due

/-- Embeds `FrequencyCalculator._calculate_weekly`. -/
def _calculate_weekly (c : Chore) (last_done : PDate) : Except PyErr PDate :=
  if c.weekday ≥ 0 then .ok (get_next_occurrence_of_weekday c.weekday last_done)
  else .ok (last_done.addDays 7)

/-- Embeds `FrequencyCalculator._calculate_multiple_weekly`. -/
def _calculate_multiple_weekly (c : Chore) (last_done : PDate) :
    Except PyErr PDate :=
  let active := activeDict c.active_days
  if active ≠ [] then .ok (findActiveDay active 8 (last_done.addDays 1))
  else if c.frequency_times = 0 then .error .zeroDivision
  else .ok (last_done.addDays (max 1 (pyRoundDiv 7 c.frequency_times)))

/-- Embeds `FrequencyCalculator._calculate_monthly`. -/
def _calculate_monthly (c : Chore) (last_done : PDate) : Except PyErr PDate :=
  if c.monthday > 0 then .ok (get_next_occurrence_of_monthday c.monthday last_done)
  else if last_done.month = 12 then .ok ⟨last_done.year + 1, 1, last_done.day⟩
  else .ok ⟨last_done.year, last_done.month + 1,
    min last_done.day (daysInMonth last_done.year (last_done.month + 1))⟩

/-- The 31-step scan of `_calculate_multiple_monthly`: check the current
day-of-month string against the dict (absent names default to inactive)
and advance one day per failed check; `none` after `fuel` failed checks. -/
def findActiveMonthday (active : List (String × Bool)) : Nat → PDate → Option PDate
  | 0, _ => none
  | n + 1, d =>
    if dictGetB active (toString d.day) false then some d
    else findActiveMonthday active n d.nextDay

/-- Embeds `FrequencyCalculator._calculate_multiple_monthly`. -/
def _calculate_multiple_monthly (c : Chore) (last_done : PDate) :
    Except PyErr PDate :=
  let active := activeDict c.active_monthdays
  if active ≠ [] then
    match findActiveMonthday active 31 (last_done.addDays 1) with
    | some d => .ok d
    | none =>
      if c.frequency_times = 0 then .error .zeroDivision
      else .ok (last_done.addDays (max 1 (pyRoundDiv 30 c.frequency_times)))
  else if c.frequency_times = 0 then .error .zeroDivision
  else .ok (last_done.addDays (max 1 (pyRoundDiv 30 c.frequency_times)))

/-- Embeds `FrequencyCalculator._calculate_quarterly`. -/
def _calculate_quarterly (c : Chore) (last_done : PDate) : Except PyErr PDate :=
  let month := last_done.month + 3
  let year := last_done.year
  let year := if month > 12 then year + 1 else year
  let month := if month > 12 then month - 12 else month
  .ok ⟨year, month, min last_done.day (daysInMonth year month)⟩

/-- Embeds `FrequencyCalculator._calculate_semiannual`. -/
def _calculate_semiannual (c : Chore) (last_done : PDate) : Except PyErr PDate :=
  let month := last_done.month + 6
  let year := last_done.year
  let year := if month > 12 then year + 1 else year
  let month := if month > 12 then month - 12 else month
  .ok ⟨year, month, min last_done.day (daysInMonth year month)⟩

/-- Embeds `FrequencyCalculator._calculate_yearly`: the `try/except`
around `date(year + 1, month, day)` falls back to day 28 (Feb 29 of a
leap year rolls to Feb 28). -/
def _calculate_yearly (c : Chore) (last_done : PDate) : Except PyErr PDate :=
  match mkPyDate (last_done.year + 1) last_done.month last_done.day with
  | some d => .ok d
  | none => .ok ⟨last_done.year + 1, last_done.month, 28⟩

/-- Embeds `FrequencyCalculator._calculate_flexible` (the `required`
count is read but unused by the source). -/
def _calculate_flexible (c : Chore) (last_done : PDate) : Except PyErr PDate :=
  if c.subtasks_period = "day" then .ok (last_done.addDays 1)
  else if c.subtasks_period = "week" then
    .ok (last_done.addDays (6 - pyWeekday last_done))
  else if c.subtasks_period = "month" then
    .ok ⟨last_done.year, last_done.month, daysInMonth last_done.year last_done.month⟩
  else .ok (last_done.addDays 1)

/-- Embeds `FrequencyCalculator.calculate_next_due_date`: a falsy
`last_done` yields `now`'s date, otherwise the date part of `last_done`
is dispatched on `frequency_type`, with the `frequency_days` fallback
for unknown types. -/
def calculate_next_due_date (c : Chore) (now : PDateTime) : Except PyErr PDate :=
  match c.last_done with
  | none => .ok now.date
  | some ld =>
    let last_done := ld.date
    if c.frequency_type = "Dagelijks" then _calculate_daily c last_done
    else if c.frequency_type = "Wekelijks" then _calculate_weekly c last_done
    else if c.frequency_type = "Meerdere keren per week" then
      _calculate_multiple_weekly c last_done
    else if c.frequency_type = "Maandelijks" then _calculate_monthly c last_done
    else if c.frequency_type = "Meerdere keren per maand" then
      _calculate_multiple_monthly c last_done
    else if c.frequency_type = "Per kwartaal" then _calculate_quarterly c last_done
    else if c.frequency_type = "Halfjaarlijks" then _calculate_semiannual c last_done
    else if c.frequency_type = "Jaarlijks" then _calculate_yearly c last_done
    else if c.frequency_type = "Flexibel" then _calculate_flexible c last_done
    else .ok (last_done.addDays c.frequency_days)

/-- Embeds `FrequencyCalculator.is_due_today`; `date.today()` is the
date part of the threaded clock. -/
def is_due_today (c : Chore) (now : PDateTime) : Except PyErr Bool :=
  if c.chore_id = "" ∨ pyStrip c.name = "" then .ok false
  else match c.last_done with
  | none => .ok true
  | some _ =>
    (calculate_next_due_date c now).map (fun next_due => decide (next_due ≤ now.date))

/-- Embeds `FrequencyCalculator.is_overdue`. -/
def is_overdue (c : Chore) (now : PDateTime) : Except PyErr Bool :=
  match c.last_done with
  | none => .ok true
  | some _ =>
    (calculate_next_due_date c now).map (fun next_due => decide (next_due < now.date))

end FrequencyCalculator

/-! ### The duplicate calculator and the classifier of `sensor.py`

`ChoresOverviewSensor.calculate_next_due_date` predates the
`FrequencyCalculator` refactoring and differs from it in several
branches.  Its two `while True:` active-day searches have no iteration
bound, so the model takes a fuel parameter; `.error .fuelExhausted`
means the loop has not found an active day within `fuel` checks. -/

namespace Sensor

/-- The unbounded `while True:` active-day search of the sensor's
`Dagelijks` and `Meerdere keren per week` branches, approximated with
fuel. -/
def activeDayLoop (active : List (String × Bool)) : Nat → PDate → Except PyErr PDate
  | 0, _ => .error .fuelExhausted
  | n + 1, d =>
    if dictGetB active (dayNames.getD (pyWeekday d) "") true then .ok d
    else activeDayLoop active n d.nextDay

/-- Embeds `ChoresOverviewSensor.calculate_next_due_date` (sensor.py
lines 419-663).  Branches are in source order; dead local computations
(the unused `times_per_week`/`days_between` of the multiple-per-week
branch, the unused `required` of the flexible branch) are omitted. -/
def calculate_next_due_date (fuel : Nat) (c : Chore) (now : PDateTime) :
    Except PyErr PDate :=
  match c.last_done with
  | none => .ok now.date
  | some ld =>
    let last_done := ld.date
    if c.frequency_type = "Dagelijks" then
      let next_due := last_done.addDays 1
      let active := activeDict c.active_days
      if active ≠ [] then activeDayLoop active fuel next_due
      else .ok next_due
    else if c.frequency_type = "Flexibel" then
      if c.subtasks_period = "day" then .ok (last_done.addDays 1)
      else if c.subtasks_period = "week" then
        .ok (last_done.addDays (6 - pyWeekday last_done))
      else if c.subtasks_period = "month" then
        .ok ⟨last_done.year, last_done.month,
          daysInMonth last_done.year last_done.month⟩
      else .error .unboundLocal
    else if c.frequency_type = "Wekelijks" then
      if c.weekday ≥ 0 then
        let days_to_add := (c.weekday - (pyWeekday last_done : Int)) % 7
        let days_to_add := if days_to_add = 0 then 7 else days_to_add
        .ok (last_done.addDays days_to_add.toNat)
      else .ok (last_done.addDays 7)
    else if c.frequency_type = "Meerdere keren per week" then
      let active := activeDict c.active_days
      if active ≠ [] then activeDayLoop active fuel (last_done.addDays 1)
      else if c.frequency_times = 0 then .error .zeroDivision
      else .ok (last_done.addDays (max 1 (pyRoundDiv 7 c.frequency_times)))
    else if c.frequency_type = "Maandelijks" then
      if c.monthday > 0 then
        let ny := if last_done.month = 12 then last_done.year + 1 else last_done.year
        let nm := if last_done.month = 12 then 1 else last_done.month + 1
        .ok ⟨ny, nm, min c.monthday.toNat (daysInMonth ny nm)⟩
      else if last_done.month = 12 then .ok ⟨last_done.year + 1, 1, last_done.day⟩
      else .ok ⟨last_done.year, last_done.month + 1,
        min last_done.day (daysInMonth last_done.year (last_done.month + 1))⟩
    else if c.frequency_type = "Meerdere keren per maand" then
      let active := activeDict c.active_monthdays
      if active ≠ [] then
        if (active.filter (fun p => p.2)).length > 0 then
          match FrequencyCalculator.findActiveMonthday active 31 (last_done.addDays 1) with
          | some d => .ok d
          | none =>
            if c.frequency_times = 0 then .error .zeroDivision
            else .ok (last_done.addDays (max 1 (pyRoundDiv 30 c.frequency_times)))
        else if c.frequency_times = 0 then .error .zeroDivision
        else .ok (last_done.addDays (max 1 (pyRoundDiv 30 c.frequency_times)))
      else if c.frequency_times = 0 then .error .zeroDivision
      else .ok (last_done.addDays (max 1 (pyRoundDiv 30 c.frequency_times)))
    else if c.frequency_type = "Per kwartaal" then
      let month := last_done.month + 3
      let year := if month > 12 then last_done.year + 1 else last_done.year
      let month := if month > 12 then month - 12 else month
      .ok ⟨year, month, min last_done.day (daysInMonth year month)⟩
    else if c.frequency_type = "Halfjaarlijks" then
      let month := last_done.month + 6
      let year := if month > 12 then last_done.year + 1 else last_done.year
      let month := if month > 12 then month - 12 else month
      .ok ⟨year, month, min last_done.day (daysInMonth year month)⟩
    else if c.frequency_type = "Jaarlijks" then
      match mkPyDate (last_done.year + 1) last_done.month last_done.day with
      | some d => .ok d
      | none => .error .valueError
    else .ok (last_done.addDays (if c.frequency_days = 0 then 7 else c.frequency_days))

/-- Same-day-completion test of `async_update.get_data` (sensor.py lines
162-166): the stored `last_done` instant parses back to itself, so its
date part is compared with today. -/
def completedToday (c : Chore) (now : PDateTime) : Bool :=
  match c.last_done with
  | none => false
  | some ld => ld.date = now.date

/-- Due-today test of `async_update.get_data` (sensor.py lines 168-175):
never-completed tasks are due, otherwise the computed next due date is
compared with today. -/
def isDueTodayFlag (fuel : Nat) (c : Chore) (now : PDateTime) : Except PyErr Bool :=
  match c.last_done with
  | none => .ok true
  | some _ =>
    (calculate_next_due_date fuel c now).map
      (fun next_due => decide (next_due ≤ now.date))

/-- Whether `get_data` counts the task among an assignee's due tasks
(sensor.py lines 177-184): due today and not completed today.
`completedToday` is computed before the due test, as in the source. -/
def countsAsDueToday (fuel : Nat) (c : Chore) (now : PDateTime) : Except PyErr Bool :=
  let ct := completedToday c now
  match isDueTodayFlag fuel c now with
  | .error e => .error e
  | .ok idt => .ok (idt && !ct)

end Sensor

/-! ### Sample data used by concrete evaluations -/

/-- A yearly task last completed on leap day 2024-02-29. -/
def yearlyLeapChore : Chore :=
  ⟨"c4", "Jaarlijkse taak", "Jaarlijks", 365, 1, -1, -1, none, none, "week",
    some ⟨⟨2024, 2, 29⟩, ⟨9, 0, 0, 0⟩⟩, some "Anna"⟩

/-- An `active_days` dict mapping all seven weekday names to false. -/
def allFalseDays : List (String × Bool) :=
  [("mon", false), ("tue", false), ("wed", false), ("thu", false),
   ("fri", false), ("sat", false), ("sun", false)]

/-- A daily task with every weekday inactive, last completed 2024-06-10. -/
def dailyAllFalseChore : Chore :=
  ⟨"c5", "Dagelijkse taak", "Dagelijks", 1, 1, -1, -1, some allFalseDays, none,
    "week", some ⟨⟨2024, 6, 10⟩, ⟨8, 0, 0, 0⟩⟩, some "Bram"⟩

theorem allFalseDays_lookup (d : PDate) :
    dictGetB allFalseDays (dayNames.getD (pyWeekday d) "") true = false := by
  have h : pyWeekday d = 0 ∨ pyWeekday d = 1 ∨ pyWeekday d = 2 ∨ pyWeekday d = 3 ∨
      pyWeekday d = 4 ∨ pyWeekday d = 5 ∨ pyWeekday d = 6 := by
    have := pyWeekday_lt_seven d
    omega
  rcases h with h | h | h | h | h | h | h <;> rw [h] <;> rfl

theorem sensor_activeDayLoop_allFalse (fuel : Nat) (d : PDate) :
    Sensor.activeDayLoop allFalseDays fuel d = .error .fuelExhausted := by
  induction fuel generalizing d with
  | zero => rfl
  | succ n ih =>
    unfold Sensor.activeDayLoop
    rw [allFalseDays_lookup, if_neg (by simp)]
    exact ih d.nextDay

/-! ### Specification of the monthly day-of-month rule -/

/-- A date that is "the occurrence of day-of-month `mday` clamped to its
month": its day is `mday` clamped to the length of its month. -/
def isClampedOccurrence (mday : Int) (o : PDate) : Prop :=
  1 ≤ o.month ∧ o.month ≤ 12 ∧
  o.day = min mday.toNat (daysInMonth o.year o.month)

theorem isClampedOccurrence_mk (mday : Int) (oy om od : Nat) :
    isClampedOccurrence mday ⟨oy, om, od⟩ ↔
      1 ≤ om ∧ om ≤ 12 ∧ od = min mday.toNat (daysInMonth oy om) :=
  Iff.rfl

/-- What `get_next_occurrence_of_monthday` computes, for a valid start
date and a 1-31 `monthday`: a valid clamped occurrence, never before the
start date, equal to it exactly when `monthday` exceeds the start
month's length and the start date is its last day, and minimal among
clamped occurrences strictly after the start date. -/
theorem monthday_occurrence_spec (mday : Int) (a : PDate) (hv : a.valid)
    (h1 : 1 ≤ mday) (h31 : mday ≤ 31) :
    (get_next_occurrence_of_monthday mday a).valid ∧
    a ≤ get_next_occurrence_of_monthday mday a ∧
    (get_next_occurrence_of_monthday mday a = a ↔
      ((a.day : Int) < mday ∧ a.day = daysInMonth a.year a.month)) ∧
    isClampedOccurrence mday (get_next_occurrence_of_monthday mday a) ∧
    (∀ o, isClampedOccurrence mday o → a < o →
      get_next_occurrence_of_monthday mday a ≤ o) := by
  obtain ⟨y, m, dd⟩ := a
  dsimp only
  rw [PDate.valid_mk] at hv
  obtain ⟨hm1, hm2, hd1, hd2⟩ := hv
  have hmn : (mday.toNat : Int) = mday := Int.toNat_of_nonneg (by omega)
  have hmn1 : 1 ≤ mday.toNat := by omega
  have hmn31 : mday.toNat ≤ 31 := by omega
  have hdyle := daysInMonth_le y m
  by_cases hge : (dd : Int) ≥ mday
  · have hmled : mday.toNat ≤ dd := by omega
    by_cases hm12 : m = 12
    · -- December rolls to January of the next year.
      have hr : get_next_occurrence_of_monthday mday ⟨y, m, dd⟩ =
          ⟨y + 1, 1, min mday.toNat (daysInMonth (y + 1) 1)⟩ := by
        unfold get_next_occurrence_of_monthday
        dsimp only
        simp only [if_pos hge, if_pos hm12]
      have hdim : daysInMonth (y + 1) 1 = 31 := daysInMonth_one _
      rw [hr, hdim]
      refine ⟨?_, ?_, ?_, ?_, ?_⟩
      · rw [PDate.valid_mk, daysInMonth_one]; omega
      · rw [PDate.le_def, PDate.key_mk, PDate.key_mk]; omega
      · constructor
        · intro he
          rw [PDate.mk.injEq] at he
          omega
        · intro he
          omega
      · rw [isClampedOccurrence_mk, daysInMonth_one]
        omega
      · intro o hocc hlt
        obtain ⟨oy, om, od⟩ := o
        rw [isClampedOccurrence_mk] at hocc
        obtain ⟨ho1, ho2, ho3⟩ := hocc
        have hdo1 := daysInMonth_pos oy om
        have hdo2 := daysInMonth_le oy om
        rw [PDate.lt_def, PDate.key_mk, PDate.key_mk] at hlt
        rw [PDate.le_def, PDate.key_mk, PDate.key_mk]
        by_cases hsame : oy = y + 1 ∧ om = 1
        · obtain ⟨h5, h6⟩ := hsame
          subst h5; subst h6
          rw [hdim] at ho3
          omega
        · omega
    · -- Any other month rolls to the following month of the same year.
      have hr : get_next_occurrence_of_monthday mday ⟨y, m, dd⟩ =
          ⟨y, m + 1, min mday.toNat (daysInMonth y (m + 1))⟩ := by
        unfold get_next_occurrence_of_monthday
        dsimp only
        simp only [if_pos hge, if_neg hm12]
      have hdim1 := daysInMonth_pos y (m + 1)
      have hdim2 := daysInMonth_le y (m + 1)
      rw [hr]
      refine ⟨?_, ?_, ?_, ?_, ?_⟩
      · rw [PDate.valid_mk]; omega
      · rw [PDate.le_def, PDate.key_mk, PDate.key_mk]; omega
      · constructor
        · intro he
          rw [PDate.mk.injEq] at he
          omega
        · intro he
          omega
      · rw [isClampedOccurrence_mk]
        omega
      · intro o hocc hlt
        obtain ⟨oy, om, od⟩ := o
        rw [isClampedOccurrence_mk] at hocc
        obtain ⟨ho1, ho2, ho3⟩ := hocc
        have hdo1 := daysInMonth_pos oy om
        have hdo2 := daysInMonth_le oy om
        rw [PDate.lt_def, PDate.key_mk, PDate.key_mk] at hlt
        rw [PDate.le_def, PDate.key_mk, PDate.key_mk]
        by_cases hsame : oy = y ∧ om = m + 1
        · obtain ⟨h5, h6⟩ := hsame
          subst h5; subst h6
          omega
        · omega
  · -- The target day has not yet passed: stay in the current month.
    have hdlt : dd < mday.toNat := by omega
    have hr : get_next_occurrence_of_monthday mday ⟨y, m, dd⟩ =
        ⟨y, m, min mday.toNat (daysInMonth y m)⟩ := by
      unfold get_next_occurrence_of_monthday
      dsimp only
      simp only [if_neg hge]
    rw [hr]
    refine ⟨?_, ?_, ?_, ?_, ?_⟩
    · rw [PDate.valid_mk]; omega
    · rw [PDate.le_def, PDate.key_mk, PDate.key_mk]; omega
    · constructor
      · intro he
        rw [PDate.mk.injEq] at he
        refine ⟨by omega, by omega⟩
      · intro he
        rw [PDate.mk.injEq]
        omega
    · rw [isClampedOccurrence_mk]
      omega
    · intro o hocc hlt
      obtain ⟨oy, om, od⟩ := o
      rw [isClampedOccurrence_mk] at hocc
      obtain ⟨ho1, ho2, ho3⟩ := hocc
      have hdo1 := daysInMonth_pos oy om
      have hdo2 := daysInMonth_le oy om
      rw [PDate.lt_def, PDate.key_mk, PDate.key_mk] at hlt
      rw [PDate.le_def, PDate.key_mk, PDate.key_mk]
      by_cases hsame : oy = y ∧ om = m
      · obtain ⟨h5, h6⟩ := hsame
        subst h5; subst h6
        omega
      · omega

/-! ### String-level model of `date_utils.parse_date`

The parsing utility itself is modelled over character lists.  The model
of `datetime.fromisoformat` covers the subset of its grammar the
program and spec use: `YYYY-MM-DD`, optionally followed by a separator
character and `HH:MM:SS[.f..f]` (one to six fractional digits); inputs
outside this subset (timezone offsets, short time forms, compact dates)
are treated as unparseable.  `strptime` with `%Y-%m-%d` and
`%Y-%m-%d %H:%M:%S` is modelled on the zero-padded shapes those format
strings produce. -/

def isDigitCh (ch : Char) : Bool := '0' ≤ ch && ch ≤ '9'

/-- Numeric value of a digit string. -/
def digitsVal (cs : List Char) : Nat :=
  cs.foldl (fun a ch => a * 10 + (ch.toNat - '0'.toNat)) 0

/-- Shape `DDDD-DD-DD` (what the regex `(\d{4}-\d{2}-\d{2})` matches and
`%Y-%m-%d` accepts in padded form). -/
def dateShape (cs : List Char) : Bool :=
  match cs with
  | [a, b, c, d, e, f, g, h, i, j] =>
    isDigitCh a && isDigitCh b && isDigitCh c && isDigitCh d && e = '-' &&
    isDigitCh f && isDigitCh g && h = '-' && isDigitCh i && isDigitCh j
  | _ => false

/-- Shape `DD:DD:DD` (padded `%H:%M:%S`). -/
def timeShape (cs : List Char) : Bool :=
  match cs with
  | [a, b, c, d, e, f, g, h] =>
    isDigitCh a && isDigitCh b && c = ':' && isDigitCh d && isDigitCh e &&
    f = ':' && isDigitCh g && isDigitCh h
  | _ => false

/-- The year/month/day fields of a `DDDD-DD-DD` character list. -/
def ymdFields (cs : List Char) : Nat × Nat × Nat :=
  (digitsVal (cs.take 4), digitsVal ((cs.drop 5).take 2),
    digitsVal ((cs.drop 8).take 2))

/-- A fractional-seconds suffix `.f..f` with one to six digits. -/
def fracShape (cs : List Char) : Bool :=
  match cs with
  | '.' :: ds => decide (ds ≠ []) && decide (ds.length ≤ 6) && ds.all isDigitCh
  | _ => false

/-- Microseconds denoted by a fractional-seconds suffix. -/
def fracVal (cs : List Char) : Nat :=
  match cs with
  | _ :: ds => digitsVal ds * 10 ^ (6 - ds.length)
  | [] => 0

/-- The time-of-day part of the `fromisoformat` model. -/
def parseIsoTime (d : PDate) (tcs : List Char) : Option PDateTime :=
  if timeShape (tcs.take 8) then
    let h := digitsVal (tcs.take 2)
    let mi := digitsVal ((tcs.drop 3).take 2)
    let se := digitsVal ((tcs.drop 6).take 2)
    if h < 24 ∧ mi < 60 ∧ se < 60 then
      match tcs.drop 8 with
      | [] => some ⟨d, ⟨h, mi, se, 0⟩⟩
      | frac => if fracShape frac then some ⟨d, ⟨h, mi, se, fracVal frac⟩⟩ else none
    else none
  else none

/-- Model of `datetime.fromisoformat` on the subset described above. -/
def pyFromIso (cs : List Char) : Option PDateTime :=
  if dateShape (cs.take 10) then
    match mkPyDate (ymdFields (cs.take 10)).1 (ymdFields (cs.take 10)).2.1
        (ymdFields (cs.take 10)).2.2 with
    | none => none
    | some d =>
      match cs.drop 10 with
      | [] => some ⟨d, PTime.midnight⟩
      | _sep :: tcs => parseIsoTime d tcs
  else none

/-- Model of `str.replace('Z', '+00:00')`. -/
def replaceZ : List Char → List Char
  | [] => []
  | ch :: rest =>
    if ch = 'Z' then '+' :: '0' :: '0' :: ':' :: '0' :: '0' :: replaceZ rest
    else ch :: replaceZ rest

/-- Model of `datetime.strptime(s, '%Y-%m-%d')` (padded shape). -/
def strptimeYmd (cs : List Char) : Option PDateTime :=
  if dateShape cs then
    match mkPyDate (ymdFields cs).1 (ymdFields cs).2.1 (ymdFields cs).2.2 with
    | some d => some ⟨d, PTime.midnight⟩
    | none => none
  else none

/-- Model of `datetime.strptime(s, '%Y-%m-%d %H:%M:%S')` (padded shape). -/
def strptimeYmdHms (cs : List Char) : Option PDateTime :=
  match cs.drop 10 with
  | ' ' :: tcs =>
    if dateShape (cs.take 10) && timeShape tcs then
      match mkPyDate (ymdFields (cs.take 10)).1 (ymdFields (cs.take 10)).2.1
          (ymdFields (cs.take 10)).2.2 with
      | some d =>
        let h := digitsVal (tcs.take 2)
        let mi := digitsVal ((tcs.drop 3).take 2)
        let se := digitsVal ((tcs.drop 6).take 2)
        if h < 24 ∧ mi < 60 ∧ se < 60 then some ⟨d, ⟨h, mi, se, 0⟩⟩ else none
      | none => none
    else none
  | _ => none

/-- The `# Try standard formats` tail of `parse_date` (date_utils.py
lines 34-45): both `strptime` calls sit in a `try/except ValueError`
that falls back to `now`, so this part is total. -/
def parseStdFormats (cs : List Char) (now : PDateTime) : PDateTime :=
  if cs.any (fun ch => ch = ' ') then
    match strptimeYmdHms cs with
    | some dt => dt
    | none => now
  else
    match strptimeYmd cs with
    | some dt => dt
    | none => now

/-- Embeds `date_utils.parse_date` (lines 11-45; `sensor.py`'s private
`parse_date` is line-for-line the same).  The only uncaught exception is
the `strptime` call at line 32, inside the `except ValueError` handler
of the `'T'` branch: when `fromisoformat` fails, the regex matches a
leading `\d{4}-\d{2}-\d{2}`, and those ten characters are not a valid
date, the `ValueError` escapes — modelled as `.error ()`. -/
def parseDate (date_string : Option String) (now : PDateTime) :
    Except Unit PDateTime :=
  match date_string with
  | none => .ok now
  | some s =>
    let cs := s.data
    if cs = [] then .ok now
    else if cs.any (fun ch => ch = 'T') then
      match pyFromIso (replaceZ cs) with
      | some dt => .ok dt
      | none =>
        if dateShape (cs.take 10) then
          match strptimeYmd (cs.take 10) with
          | some dt => .ok dt
          | none => .error ()
        else .ok (parseStdFormats cs now)
    else .ok (parseStdFormats cs now)

/-! ### Store snapshots

Rows of the tables that `reset_chore` and
`update_chore_completion_status` read and write, restricted to the
fields those operations touch. -/

/-- A row of `chore_history`. -/
structure HistoryEntry where
  chore_id : String
  done_by : String
  done_at : PDateTime
deriving DecidableEq, Repr

/-- A row of `subtasks`. -/
structure SubtaskRow where
  id : Nat
  chore_id : String
  name : String
deriving DecidableEq, Repr

/-- A row of `subtask_completions`. -/
structure SubtaskCompletion where
  subtask_id : Nat
  done_by : String
  done_at : PDateTime
deriving DecidableEq, Repr

/-- The fields of a `chores` row that reset and aggregation touch. -/
structure ChoreRow where
  id : String
  has_subtasks : Bool
  subtasks_completion_type : String
  subtasks_period : String
  last_done : Option PDateTime
  last_done_by : Option String
deriving DecidableEq, Repr

/-- A snapshot of the four tables. -/
structure Database where
  chores : List ChoreRow
  history : List HistoryEntry
  subtasks : List SubtaskRow
  subtask_completions : List SubtaskCompletion
deriving DecidableEq, Repr

/-! ### Reset of `db/chores.py` -/

/-- Embeds `db/chores.py::_reset_subtask_completions_today` (lines
280-287): delete today's completions of the chore's subtasks. -/
def _reset_subtask_completions_today (db : Database) (chore_id : String)
    (now : PDateTime) : Database :=
  { db with subtask_completions := db.subtask_completions.filter (fun sc =>
      ¬(db.subtasks.any (fun st => st.chore_id = chore_id ∧ st.id = sc.subtask_id) ∧
        sc.done_at.date = now.date)) }

/-- Embeds `db/chores.py::reset_chore` (lines 91-119): if the chore
exists, delete its history rows dated today, null out
`last_done`/`last_done_by`, and (for a chore with subtasks) delete
today's subtask completions; the Bool is the success flag. -/
def reset_chore (db : Database) (chore_id : String) (now : PDateTime) :
    Database × Bool :=
  match db.chores.find? (fun ch => ch.id == chore_id) with
  | none => (db, false)
  | some chore =>
    let db1 := { db with history := db.history.filter (fun h =>
        ¬(h.chore_id = chore_id ∧ h.done_at.date = now.date)) }
    let db2 := { db1 with chores := db1.chores.map (fun ch =>
        if ch.id = chore_id then
          { ch with last_done := none, last_done_by := none }
        else ch) }
    let db3 := if chore.has_subtasks then
        _reset_subtask_completions_today db2 chore_id now
      else db2
    (db3, true)

/-! ### Subtask aggregation of `database.py` -/

/-- Start of the current `subtasks_period` window (database.py lines
745-759): midnight today, Monday midnight of this week, the first of
this month, or midnight today for an unknown period. -/
def periodStart (period : String) (now : PDateTime) : PDateTime :=
  if period = "day" then ⟨now.date, PTime.midnight⟩
  else if period = "week" then ⟨now.date.subDays (pyWeekday now.date), PTime.midnight⟩
  else if period = "month" then ⟨⟨now.date.year, now.date.month, 1⟩, PTime.midnight⟩
  else ⟨now.date, PTime.midnight⟩

/-- The ids of a chore's subtasks
(`SELECT id FROM subtasks WHERE chore_id = ?`). -/
def choreSubtaskIds (db : Database) (chore_id : String) : List Nat :=
  (db.subtasks.filter (fun st => st.chore_id = chore_id)).map (fun st => st.id)

/-- The completions counted by the aggregation: belonging to one of the
chore's subtasks and at or after the period start (`done_at >= ?`;
stored ISO strings of a uniform shape compare chronologically). -/
def qualifyingCompletions (db : Database) (chore_id : String) (ps : PDateTime) :
    List SubtaskCompletion :=
  db.subtask_completions.filter (fun sc =>
    decide (sc.subtask_id ∈ choreSubtaskIds db chore_id) && decide (ps ≤ sc.done_at))

/-- SQL `SELECT MAX(done_at), done_by`: a row carrying the greatest
instant (the earliest such row when several are tied), `none` on an
empty set. -/
def maxCompletion : List SubtaskCompletion → Option SubtaskCompletion
  | [] => none
  | sc :: rest =>
    match maxCompletion rest with
    | none => some sc
    | some m => if m.done_at.key > sc.done_at.key then some m else some sc

/-- Embeds `database.py::update_chore_completion_status` (lines
716-817), the copy the service layer imports.  An unknown `chore_id`
raises `ValueError` (`.error`); a chore without subtasks, or whose
`should_complete` or monotonicity guard fails, is returned unchanged;
otherwise `last_done`/`last_done_by` come from the latest qualifying
completion.  The guard `current_last_done < latest_done_at` is the SQL
string comparison, chronological on the uniform stored shape. -/
def update_chore_completion_status (db : Database) (chore_id : String)
    (now : PDateTime) : Except Unit Database :=
  match db.chores.find? (fun ch => ch.id == chore_id) with
  | none => .error ()
  | some chore =>
    if ¬chore.has_subtasks then .ok db
    else
      let subtask_ids := choreSubtaskIds db chore_id
      if subtask_ids = [] then .ok db
      else
        let ps := periodStart chore.subtasks_period now
        let qualifying := qualifyingCompletions db chore_id ps
        let completed_count := (qualifying.map (fun sc => sc.subtask_id)).dedup.length
        let should_complete :=
          if chore.subtasks_completion_type = "all" then
            completed_count = subtask_ids.length
          else completed_count > 0
        if should_complete then
          match maxCompletion qualifying with
          | none => .ok db
          | some latest =>
            let do_update :=
              match chore.last_done with
              | none => true
              | some cur => cur < latest.done_at ∨ cur.date < latest.done_at.date
            if do_update then
              .ok { db with chores := db.chores.map (fun ch =>
                if ch.id = chore_id then
                  { ch with
                    last_done := some latest.done_at
                    last_done_by := some latest.done_by }
                else ch) }
            else .ok db
        else .ok db

/-- The spec-level completion condition: ALL = every subtask of the
chore has a qualifying completion, ANY = some subtask does. -/
def shouldCompleteSpec (db : Database) (chore : ChoreRow) (now : PDateTime) :
    Prop :=
  (chore.subtasks_completion_type = "all" ∧
    ∀ sid ∈ choreSubtaskIds db chore.id, ∃ sc ∈ db.subtask_completions,
      sc.subtask_id = sid ∧ periodStart chore.subtasks_period now ≤ sc.done_at) ∨
  (chore.subtasks_completion_type ≠ "all" ∧
    ∃ sc ∈ db.subtask_completions,
      sc.subtask_id ∈ choreSubtaskIds db chore.id ∧
      periodStart chore.subtasks_period now ≤ sc.done_at)

instance (db : Database) (chore : ChoreRow) (now : PDateTime) :
    Decidable (shouldCompleteSpec db chore now) := by
  unfold shouldCompleteSpec
  infer_instance

/-- The spec-level monotonicity guard of the aggregation: the current
`last_done` is absent, or the latest completion is newer as an instant
or newer by calendar date. -/
def updateGuard (cur : Option PDateTime) (latest : PDateTime) : Prop :=
  cur = none ∨ ∃ cdt, cur = some cdt ∧ (cdt < latest ∨ cdt.date < latest.date)

theorem maxCompletion_spec (l : List SubtaskCompletion) (hne : l ≠ []) :
    ∃ latest, maxCompletion l = some latest ∧ latest ∈ l ∧
      ∀ sc ∈ l, sc.done_at.key ≤ latest.done_at.key := by
  induction l with
  | nil => exact absurd rfl hne
  | cons a rest ih =>
    by_cases hr : rest = []
    · subst hr
      refine ⟨a, rfl, List.mem_cons_self _ _, ?_⟩
      intro sc hsc
      rcases List.mem_cons.mp hsc with h | h
      · rw [h]
      · cases h
    · obtain ⟨m, hm, hmem, hmax⟩ := ih hr
      refine ⟨if m.done_at.key > a.done_at.key then m else a, ?_, ?_, ?_⟩
      · show maxCompletion (a :: rest) = _
        unfold maxCompletion
        rw [hm]
        dsimp only
        by_cases hgt : m.done_at.key > a.done_at.key
        · rw [if_pos hgt, if_pos hgt]
        · rw [if_neg hgt, if_neg hgt]
      · by_cases hgt : m.done_at.key > a.done_at.key
        · rw [if_pos hgt]
          exact List.mem_cons_of_mem _ hmem
        · rw [if_neg hgt]
          exact List.mem_cons_self _ _
      · intro sc hsc
        by_cases hgt : m.done_at.key > a.done_at.key
        · rw [if_pos hgt]
          rcases List.mem_cons.mp hsc with h | h
          · rw [h]; omega
          · exact hmax sc h
        · rw [if_neg hgt]
          rcases List.mem_cons.mp hsc with h | h
          · rw [h]
          · have := hmax sc h; omega

theorem qualifying_mem (db : Database) (chore_id : String) (ps : PDateTime)
    (sc : SubtaskCompletion) :
    sc ∈ qualifyingCompletions db chore_id ps ↔
      sc ∈ db.subtask_completions ∧ sc.subtask_id ∈ choreSubtaskIds db chore_id ∧
        ps ≤ sc.done_at := by
  unfold qualifyingCompletions
  rw [List.mem_filter]
  simp [and_assoc]

theorem completed_count_all_iff (db : Database) (chore_id : String)
    (ps : PDateTime) (hnodup : (choreSubtaskIds db chore_id).Nodup) :
    ((qualifyingCompletions db chore_id ps).map (fun sc => sc.subtask_id)).dedup.length =
        (choreSubtaskIds db chore_id).length ↔
      ∀ sid ∈ choreSubtaskIds db chore_id, ∃ sc ∈ db.subtask_completions,
        sc.subtask_id = sid ∧ ps ≤ sc.done_at := by
  have hsub : ((qualifyingCompletions db chore_id ps).map
      (fun sc => sc.subtask_id)).toFinset ⊆ (choreSubtaskIds db chore_id).toFinset := by
    intro x hx
    rw [List.mem_toFinset] at hx
    obtain ⟨sc, hsc, rfl⟩ := List.mem_map.mp hx
    rw [List.mem_toFinset]
    exact ((qualifying_mem db chore_id ps sc).mp hsc).2.1
  have hcard1 : ((qualifyingCompletions db chore_id ps).map
      (fun sc => sc.subtask_id)).toFinset.card =
      ((qualifyingCompletions db chore_id ps).map (fun sc => sc.subtask_id)).dedup.length :=
    List.card_toFinset _
  have hcard2 : (choreSubtaskIds db chore_id).toFinset.card =
      (choreSubtaskIds db chore_id).length :=
    List.toFinset_card_of_nodup hnodup
  constructor
  · intro hlen sid hsid
    have hfeq : ((qualifyingCompletions db chore_id ps).map
        (fun sc => sc.subtask_id)).toFinset = (choreSubtaskIds db chore_id).toFinset := by
      apply Finset.eq_of_subset_of_card_le hsub
      omega
    have : sid ∈ ((qualifyingCompletions db chore_id ps).map
        (fun sc => sc.subtask_id)).toFinset := by
      rw [hfeq, List.mem_toFinset]
      exact hsid
    rw [List.mem_toFinset] at this
    obtain ⟨sc, hsc, heq⟩ := List.mem_map.mp this
    obtain ⟨hmem, _, hps⟩ := (qualifying_mem db chore_id ps sc).mp hsc
    exact ⟨sc, hmem, heq, hps⟩
  · intro hall
    have hsub2 : (choreSubtaskIds db chore_id).toFinset ⊆
        ((qualifyingCompletions db chore_id ps).map (fun sc => sc.subtask_id)).toFinset := by
      intro sid hsid
      rw [List.mem_toFinset] at hsid
      obtain ⟨sc, hmem, hid, hps⟩ := hall sid hsid
      rw [List.mem_toFinset]
      refine List.mem_map.mpr ⟨sc, ?_, hid⟩
      rw [qualifying_mem]
      rw [hid]
      exact ⟨hmem, hsid, hps⟩
    have : ((qualifyingCompletions db chore_id ps).map
        (fun sc => sc.subtask_id)).toFinset = (choreSubtaskIds db chore_id).toFinset :=
      Finset.Subset.antisymm hsub hsub2
    have := congrArg Finset.card this
    omega

theorem completed_count_any_iff (db : Database) (chore_id : String)
    (ps : PDateTime) :
    0 < ((qualifyingCompletions db chore_id ps).map
        (fun sc => sc.subtask_id)).dedup.length ↔
      ∃ sc ∈ db.subtask_completions, sc.subtask_id ∈ choreSubtaskIds db chore_id ∧
        ps ≤ sc.done_at := by
  rw [List.length_pos]
  constructor
  · intro hne
    have : (qualifyingCompletions db chore_id ps) ≠ [] := by
      intro h
      apply hne
      rw [h]
      rfl
    obtain ⟨sc, hsc⟩ := List.exists_mem_of_ne_nil _ this
    exact ⟨sc, (qualifying_mem db chore_id ps sc).mp hsc⟩
  · intro ⟨sc, hmem, hid, hps⟩
    intro h
    have : sc.subtask_id ∈ ((qualifyingCompletions db chore_id ps).map
        (fun sc => sc.subtask_id)).dedup := by
      rw [List.mem_dedup]
      exact List.mem_map.mpr ⟨sc, (qualifying_mem db chore_id ps sc).mpr
        ⟨hmem, hid, hps⟩, rfl⟩
    rw [h] at this
    cases this

/-! ### Force-due of `database.py`

The copy of `force_chore_due` the service layer imports (`database.py`
lines 507-571; the divergent `db/chores.py::_calculate_frequency_days`
refactoring, which adds 90/180/365 rows, is not imported by any service
module). -/

/-- Embeds the shift-days table of `database.py force_chore_due` (lines
525-537); `frequency_days or 7` maps a zero `frequency_days` to 7. -/
def forceShiftDays (frequency_type : String) (frequency_days : Nat) : Nat :=
  if frequency_type = "Dagelijks" then 1
  else if frequency_type = "Wekelijks" then 7
  else if frequency_type = "Meerdere keren per week" then 3
  else if frequency_type = "Maandelijks" then 30
  else if frequency_type = "Flexibel" then 1
  else if frequency_days = 0 then 7 else frequency_days

/-- Embeds the `last_done` update of `database.py force_chore_due`
(lines 539-549): today's midnight minus `shift_days + 1` days. -/
def force_chore_due (c : Chore) (now : PDateTime) : Chore :=
  let due_date : PDateTime :=
    ⟨now.date.subDays (forceShiftDays c.frequency_type c.frequency_days + 1),
      PTime.midnight⟩
  { c with last_done := some due_date }

theorem weekday_occurrence_addDays (w : Int) (d : PDate) :
    ∃ k, k ≤ 7 ∧ get_next_occurrence_of_weekday w d = d.addDays k := by
  unfold get_next_occurrence_of_weekday
  dsimp only
  have h0 : 0 ≤ (w - (pyWeekday d : Int)) % 7 :=
    Int.emod_nonneg _ (by norm_num)
  have h7 : (w - (pyWeekday d : Int)) % 7 < 7 :=
    Int.emod_lt_of_pos _ (by norm_num)
  by_cases hz : (w - (pyWeekday d : Int)) % 7 = 0
  · refine ⟨7, Nat.le_refl _, ?_⟩
    rw [if_pos hz]
    rfl
  · refine ⟨((w - (pyWeekday d : Int)) % 7).toNat, by omega, ?_⟩
    rw [if_neg hz]

/-! ### The streak loop of `sensor.py`

The per-assignee streak of `async_update.get_data` (sensor.py lines
292-344) touches calendar dates only through equality, membership and
"today minus `i` days", so dates are modelled as integer day indices:
`done_day` / `last_done_day` stand for SQL `date(done_at)` /
`date(last_done)`. -/

/-- A `chore_history` row as the streak query sees it. -/
structure StreakHistoryRow where
  done_by : String
  done_day : Int
deriving DecidableEq, Repr

/-- A `chores` row as the streak queries see it. -/
structure StreakChoreRow where
  assigned_to : String
  last_done_day : Option Int
deriving DecidableEq, Repr

/-- Insertion into a strictly descending list, dropping duplicates:
builds the result of `GROUP BY date ORDER BY date DESC`. -/
def insertDescDedup (x : Int) : List Int → List Int
  | [] => [x]
  | y :: ys =>
    if x > y then x :: y :: ys
    else if x = y then y :: ys
    else y :: insertDescDedup x ys

/-- The `dates` list of the streak block (sensor.py lines 295-304): the
person's distinct completion dates, newest first, limited to 30. -/
def streakDates (history : List StreakHistoryRow) (person : String) : List Int :=
  (((history.filter (fun h => h.done_by = person)).map
    (fun h => h.done_day)).foldr insertDescDedup []).take 30

/-- The `had_tasks_on_date` test (sensor.py lines 326-332):
`assigned_to = person AND date(last_done) = prev_date`. -/
def hadTasksOnDate (chores : List StreakChoreRow) (person : String) (d : Int) :
    Bool :=
  chores.any (fun c => c.assigned_to = person ∧ c.last_done_day = some d)

/-- The backward walk (sensor.py lines 322-342): starting with streak 1
at `i = 1`, each prior day with a completion, or without assigned
tasks, increments; the first day with assigned tasks and no completion
stops the walk (`fuel` runs the 29 iterations of `range(1, 30)`). -/
def streakWalk (dates : List Int) (chores : List StreakChoreRow)
    (person : String) (today : Int) : Nat → Nat → Nat → Nat
  | 0, _, streak => streak
  | fuel + 1, i, streak =>
    let prev := today - (i : Int)
    if prev ∈ dates then
      streakWalk dates chores person today fuel (i + 1) (streak + 1)
    else if ¬hadTasksOnDate chores person prev then
      streakWalk dates chores person today fuel (i + 1) (streak + 1)
    else streak

/-- Embeds the per-assignee streak computation of
`async_update.get_data` (sensor.py lines 292-344): 0 when the person
has no completion dates or none today, else the bounded backward walk. -/
def streak (history : List StreakHistoryRow) (chores : List StreakChoreRow)
    (person : String) (today : Int) : Nat :=
  let dates := streakDates history person
  if dates = [] then 0
  else if today ∈ dates then streakWalk dates chores person today 29 1 1
  else 0

/-- Spec-side: the person completed something on day `d`. -/
def completedOnDay (history : List StreakHistoryRow) (person : String)
    (d : Int) : Prop :=
  ∃ h ∈ history, h.done_by = person ∧ h.done_day = d

instance (history : List StreakHistoryRow) (person : String) (d : Int) :
    Decidable (completedOnDay history person d) := by
  unfold completedOnDay
  infer_instance

/-- Spec-side walk length: the number of consecutive days
`today - 1, ..., today - 29` on which the person completed something or
had no chore with `last_done` exactly that day. -/
def specWalkLen (history : List StreakHistoryRow)
    (chores : List StreakChoreRow) (person : String) (today : Int) : Nat :=
  ((List.range' 1 29).takeWhile (fun (i : Nat) =>
    decide (completedOnDay history person (today - (i : Int))) ||
    !hadTasksOnDate chores person (today - (i : Int)))).length

theorem insertDescDedup_mem (x : Int) (l : List Int) (z : Int) :
    z ∈ insertDescDedup x l ↔ z = x ∨ z ∈ l := by
  induction l with
  | nil => simp [insertDescDedup]
  | cons y ys ih =>
    unfold insertDescDedup
    by_cases h1 : x > y
    · rw [if_pos h1]
      simp [List.mem_cons]
    · rw [if_neg h1]
      by_cases h2 : x = y
      · rw [if_pos h2]
        subst h2
        simp only [List.mem_cons]
        tauto
      · rw [if_neg h2]
        simp only [List.mem_cons, ih]
        tauto

theorem insertDescDedup_sorted (x : Int) (l : List Int)
    (h : l.Pairwise (· > ·)) : (insertDescDedup x l).Pairwise (· > ·) := by
  induction l with
  | nil => simp [insertDescDedup]
  | cons y ys ih =>
    rw [List.pairwise_cons] at h
    obtain ⟨hy, hys⟩ := h
    unfold insertDescDedup
    by_cases h1 : x > y
    · rw [if_pos h1]
      rw [List.pairwise_cons]
      constructor
      · intro z hz
        rcases List.mem_cons.mp hz with rfl | hz'
        · exact h1
        · have := hy z hz'
          omega
      · rw [List.pairwise_cons]
        exact ⟨hy, hys⟩
    · rw [if_neg h1]
      by_cases h2 : x = y
      · rw [if_pos h2]
        rw [List.pairwise_cons]
        exact ⟨hy, hys⟩
      · rw [if_neg h2]
        rw [List.pairwise_cons]
        constructor
        · intro z hz
          rcases (insertDescDedup_mem x ys z).mp hz with rfl | hz'
          · omega
          · exact hy z hz'
        · exact ih hys

theorem foldr_insertDescDedup_mem (l : List Int) (z : Int) :
    z ∈ l.foldr insertDescDedup [] ↔ z ∈ l := by
  induction l with
  | nil => simp
  | cons x xs ih =>
    simp only [List.foldr_cons, insertDescDedup_mem, List.mem_cons, ih]

theorem foldr_insertDescDedup_sorted (l : List Int) :
    (l.foldr insertDescDedup []).Pairwise (· > ·) := by
  induction l with
  | nil => simp
  | cons x xs ih => exact insertDescDedup_sorted _ _ ih

/-- A strictly descending list of integers bounded by `bound` keeps any
element within 29 of the bound among its first 30 entries. -/
theorem sorted_bounded_mem_take (n : Nat) (l : List Int) (bound : Int)
    (hs : l.Pairwise (· > ·)) (hb : ∀ x ∈ l, x ≤ bound)
    (d : Int) (hd : d ∈ l) (hge : bound - ((n : Int) - 1) ≤ d) :
    d ∈ l.take n := by
  induction l generalizing n bound with
  | nil => cases hd
  | cons x xs ih =>
    have hn : 1 ≤ n := by
      by_contra hcon
      have hn0 : n = 0 := by omega
      subst hn0
      have hx := hb d hd
      simp at hge
      omega
    rw [List.pairwise_cons] at hs
    obtain ⟨hgt, hsxs⟩ := hs
    cases n with
    | zero => omega
    | succ m =>
      rw [List.take_succ_cons]
      rcases List.mem_cons.mp hd with rfl | hd'
      · exact List.mem_cons_self _ _
      · have hb' : ∀ z ∈ xs, z ≤ x - 1 := by
          intro z hz
          have := hgt z hz
          omega
        have hxb := hb x (List.mem_cons_self _ _)
        have hge' : (x - 1) - ((m : Int) - 1) ≤ d := by
          push_cast at hge
          omega
        exact List.mem_cons_of_mem _ (ih m (x - 1) hsxs hb' hd' hge')

/-- The backward walk of sensor.py lines 322-342, characterised as
1 + the length of the run of prior days that keep the streak alive. -/
theorem streakWalk_spec (history : List StreakHistoryRow) (dates : List Int)
    (chores : List StreakChoreRow) (person : String) (today : Int)
    (hdates : ∀ j : Nat, 1 ≤ j → j ≤ 29 →
      ((today - (j : Int)) ∈ dates ↔
        completedOnDay history person (today - (j : Int)))) :
    ∀ fuel i s, fuel + i ≤ 30 → 1 ≤ i →
      streakWalk dates chores person today fuel i s =
        s + ((List.range' i fuel).takeWhile (fun (j : Nat) =>
          decide (completedOnDay history person (today - (j : Int))) ||
          !hadTasksOnDate chores person (today - (j : Int)))).length := by
  intro fuel
  induction fuel with
  | zero =>
    intro i s _ _
    simp [streakWalk]
  | succ fuel ih =>
    intro i s hfi hi
    have hi29 : i ≤ 29 := by omega
    rw [streakWalk, List.range'_succ]
    by_cases hmem : (today - (i : Int)) ∈ dates
    · rw [if_pos hmem]
      have hc : completedOnDay history person (today - (i : Int)) :=
        (hdates i hi hi29).mp hmem
      rw [List.takeWhile_cons_of_pos (by simp [hc])]
      rw [ih (i + 1) (s + 1) (by omega) (by omega)]
      simp
      omega
    · rw [if_neg hmem]
      have hnc : ¬ completedOnDay history person (today - (i : Int)) :=
        fun hc => hmem ((hdates i hi hi29).mpr hc)
      by_cases hht : hadTasksOnDate chores person (today - (i : Int)) = true
      · rw [if_neg (by simp [hht])]
        rw [List.takeWhile_cons_of_neg (by simp [hnc, hht])]
        simp
      · rw [if_pos (by simp [hht])]
        rw [List.takeWhile_cons_of_pos (by simp [hnc, hht])]
        rw [ih (i + 1) (s + 1) (by omega) (by omega)]
        simp
        omega

/-- The claim's own predicate for "had assigned tasks as of that day":
some task assigned to the person has `last_done` on or BEFORE day `d`
(the spec's words, `≤` rather than the code's `=`). -/
def hadTasksOnOrBefore (chores : List StreakChoreRow) (person : String)
    (d : Int) : Bool :=
  chores.any (fun c => decide (c.assigned_to = person) &&
    (match c.last_done_day with
     | some ld => decide (ld ≤ d)
     | none => false))

/-- The backward walk as the claim words it: identical to `streakWalk`
except that "had assigned tasks" tests `last_done` on-or-before the day. -/
def claimStreakWalk (dates : List Int) (chores : List StreakChoreRow)
    (person : String) (today : Int) : Nat → Nat → Nat → Nat
  | 0, _, streak => streak
  | fuel + 1, i, streak =>
    let prev := today - (i : Int)
    if prev ∈ dates then
      claimStreakWalk dates chores person today fuel (i + 1) (streak + 1)
    else if ¬hadTasksOnOrBefore chores person prev then
      claimStreakWalk dates chores person today fuel (i + 1) (streak + 1)
    else streak

/-- The streak as the claim words it (on-or-before test in the walk). -/
def claimStreak (history : List StreakHistoryRow)
    (chores : List StreakChoreRow) (person : String) (today : Int) : Nat :=
  let dates := streakDates history person
  if dates = [] then 0
  else if today ∈ dates then claimStreakWalk dates chores person today 29 1 1
  else 0

/-! ### Claim theorems -/

/-- C9 (amended): `force_chore_due` sets `last_done` to today's midnight
minus `lookup(frequency_type) + 1` days, where `lookup` is exactly the
claimed table (Daily=1, Weekly=7, Multiple-per-week=3, Monthly=30,
Flexible=1, anything else — including Quarterly, Semi-annual and
Yearly — `frequency_days` or 7).  The forced task is due today under the
Weekly rule (any `weekday`) and under the Daily rule without active-day
exclusions; it is NOT due today in general — a Quarterly task's next due
date lands about three months out (see the counterexample). -/
theorem C9_force_due_shift_table (c : Chore) (now : PDateTime)
    (hvd : now.date.valid) (hy : 1 ≤ (now.date.subDays 8).year)
    (hid : c.chore_id ≠ "") (hname : pyStrip c.name ≠ "") :
    (force_chore_due c now).last_done =
      some ⟨now.date.subDays
        (forceShiftDays c.frequency_type c.frequency_days + 1), PTime.midnight⟩ ∧
    forceShiftDays "Dagelijks" c.frequency_days = 1 ∧
    forceShiftDays "Wekelijks" c.frequency_days = 7 ∧
    forceShiftDays "Meerdere keren per week" c.frequency_days = 3 ∧
    forceShiftDays "Maandelijks" c.frequency_days = 30 ∧
    forceShiftDays "Flexibel" c.frequency_days = 1 ∧
    (c.frequency_type ≠ "Dagelijks" → c.frequency_type ≠ "Wekelijks" →
      c.frequency_type ≠ "Meerdere keren per week" →
      c.frequency_type ≠ "Maandelijks" → c.frequency_type ≠ "Flexibel" →
      forceShiftDays c.frequency_type c.frequency_days =
        (if c.frequency_days = 0 then 7 else c.frequency_days)) ∧
    (c.frequency_type = "Wekelijks" →
      FrequencyCalculator.is_due_today (force_chore_due c now) now = .ok true) ∧
    (c.frequency_type = "Dagelijks" → activeDict c.active_days = [] →
      FrequencyCalculator.is_due_today (force_chore_due c now) now = .ok true) := by
  have hguard : ¬((force_chore_due c now).chore_id = "" ∨
      pyStrip (force_chore_due c now).name = "") := by
    simp [force_chore_due, hid, hname]
  refine ⟨rfl, rfl, rfl, rfl, rfl, rfl, ?_, ?_, ?_⟩
  · intro h1 h2 h3 h4 h5
    unfold forceShiftDays
    rw [if_neg h1, if_neg h2, if_neg h3, if_neg h4, if_neg h5]
  · -- Weekly: the forced task is due today.
    intro hft
    have hsub := PDate.subDays_addDays hvd 8 hy
    have hshift : forceShiftDays c.frequency_type c.frequency_days = 7 := by
      rw [hft]; rfl
    have hldf : (force_chore_due c now).last_done =
        some ⟨now.date.subDays 8, PTime.midnight⟩ := by
      unfold force_chore_due
      dsimp only
      rw [hshift]
    have hftf : (force_chore_due c now).frequency_type = "Wekelijks" := hft
    have hcalc : ∃ nd, FrequencyCalculator.calculate_next_due_date
        (force_chore_due c now) now = .ok nd ∧ nd ≤ now.date := by
      unfold FrequencyCalculator.calculate_next_due_date
      rw [hldf]
      dsimp only
      rw [if_neg (by rw [hftf]; decide), if_pos hftf]
      unfold FrequencyCalculator._calculate_weekly
      by_cases hw : (force_chore_due c now).weekday ≥ 0
      · rw [if_pos hw]
        obtain ⟨k, hk7, hkeq⟩ :=
          weekday_occurrence_addDays (force_chore_due c now).weekday
            (now.date.subDays 8)
        refine ⟨_, rfl, ?_⟩
        rw [hkeq]
        calc (now.date.subDays 8).addDays k
            ≤ (now.date.subDays 8).addDays 8 :=
              PDate.addDays_mono hsub.1 (by omega)
          _ = now.date := hsub.2
      · rw [if_neg hw]
        refine ⟨_, rfl, ?_⟩
        calc (now.date.subDays 8).addDays 7
            ≤ (now.date.subDays 8).addDays 8 :=
              PDate.addDays_mono hsub.1 (by omega)
          _ = now.date := hsub.2
    obtain ⟨nd, hnd, hle⟩ := hcalc
    unfold FrequencyCalculator.is_due_today
    rw [if_neg hguard, hldf]
    dsimp only
    rw [hnd]
    simp [Except.map, hle]
  · -- Daily without active-day exclusions: the forced task is due today.
    intro hft hact
    have hy2 : 1 ≤ (now.date.subDays 2).year :=
      le_trans hy (PDate.subDays_year_le now.date 8 2 (by omega))
    have hsub := PDate.subDays_addDays hvd 2 hy2
    have hshift : forceShiftDays c.frequency_type c.frequency_days = 1 := by
      rw [hft]; rfl
    have hldf : (force_chore_due c now).last_done =
        some ⟨now.date.subDays 2, PTime.midnight⟩ := by
      unfold force_chore_due
      dsimp only
      rw [hshift]
    have hftf : (force_chore_due c now).frequency_type = "Dagelijks" := hft
    have hcalc : FrequencyCalculator.calculate_next_due_date
        (force_chore_due c now) now = .ok ((now.date.subDays 2).addDays 1) := by
      unfold FrequencyCalculator.calculate_next_due_date
      rw [hldf]
      dsimp only
      rw [if_pos hftf]
      unfold FrequencyCalculator._calculate_daily
      have : activeDict (force_chore_due c now).active_days = [] := hact
      rw [this]
      simp
    have hle : (now.date.subDays 2).addDays 1 ≤ now.date := by
      calc (now.date.subDays 2).addDays 1
          ≤ (now.date.subDays 2).addDays 2 :=
            PDate.addDays_mono hsub.1 (by omega)
        _ = now.date := hsub.2
    unfold FrequencyCalculator.is_due_today
    rw [if_neg hguard, hldf]
    dsimp only
    rw [hcalc]
    simp [Except.map, hle]

/-- C9 witness: a Weekly task (with a target weekday) forced due on
2024-06-15 is classified as due that day. -/
theorem C9_force_due_shift_table_witness :
    FrequencyCalculator.is_due_today
      (force_chore_due
        ⟨"w9", "Planten", "Wekelijks", 7, 1, 2, -1, none, none, "week",
          some ⟨⟨2024, 6, 1⟩, ⟨9, 0, 0, 0⟩⟩, some "Fee"⟩
        ⟨⟨2024, 6, 15⟩, ⟨10, 30, 0, 0⟩⟩)
      ⟨⟨2024, 6, 15⟩, ⟨10, 30, 0, 0⟩⟩ = .ok true := by
  have h := C9_force_due_shift_table
    ⟨"w9", "Planten", "Wekelijks", 7, 1, 2, -1, none, none, "week",
      some ⟨⟨2024, 6, 1⟩, ⟨9, 0, 0, 0⟩⟩, some "Fee"⟩
    ⟨⟨2024, 6, 15⟩, ⟨10, 30, 0, 0⟩⟩ (by decide) (by decide) (by decide) (by decide)
  exact h.2.2.2.2.2.2.2.1 rfl

/-- C9 counterexample: a Quarterly task with `frequency_days = 7` forced
due on 2024-06-15 gets `last_done = 2024-06-07T00:00:00` and next due
date 2024-09-07, so it is NOT due today — the claim's "makes the task
due today" fails for the fall-through frequency types. -/
theorem C9_counterexample_quarterly_not_due :
    FrequencyCalculator.calculate_next_due_date
      (force_chore_due
        ⟨"q9", "Dakgoot", "Per kwartaal", 7, 1, -1, -1, none, none, "week",
          some ⟨⟨2024, 1, 5⟩, ⟨9, 0, 0, 0⟩⟩, some "Gijs"⟩
        ⟨⟨2024, 6, 15⟩, ⟨10, 30, 0, 0⟩⟩)
      ⟨⟨2024, 6, 15⟩, ⟨10, 30, 0, 0⟩⟩ = .ok ⟨2024, 9, 7⟩ ∧
    FrequencyCalculator.is_due_today
      (force_chore_due
        ⟨"q9", "Dakgoot", "Per kwartaal", 7, 1, -1, -1, none, none, "week",
          some ⟨⟨2024, 1, 5⟩, ⟨9, 0, 0, 0⟩⟩, some "Gijs"⟩
        ⟨⟨2024, 6, 15⟩, ⟨10, 30, 0, 0⟩⟩)
      ⟨⟨2024, 6, 15⟩, ⟨10, 30, 0, 0⟩⟩ = .ok false :=
  ⟨rfl, rfl⟩

/-- C6 (amended): for a chore with subtasks, aggregation leaves every
table except `chores` unchanged; if `should_complete` fails (ALL: some
subtask lacks a completion at or after the period start; ANY: none has
one) the snapshot is unchanged; if it holds, there is a latest
qualifying completion, and `last_done`/`last_done_by` are set from it
exactly when the monotonicity guard passes — the current `last_done` is
null, or the latest completion is strictly newer AS AN INSTANT or
strictly newer by calendar date (so a same-date but later-instant
completion does update, contrary to the claim's "by calendar date, not
just by instant" reading); when the guard fails nothing changes. -/
theorem C6_subtask_aggregation (db : Database) (chore_id : String)
    (now : PDateTime) (chore : ChoreRow)
    (hfind : db.chores.find? (fun ch => ch.id == chore_id) = some chore)
    (hhs : chore.has_subtasks = true)
    (hne : choreSubtaskIds db chore_id ≠ [])
    (hnodup : (choreSubtaskIds db chore_id).Nodup) :
    ∃ db', update_chore_completion_status db chore_id now = .ok db' ∧
      db'.history = db.history ∧
      db'.subtasks = db.subtasks ∧
      db'.subtask_completions = db.subtask_completions ∧
      (¬shouldCompleteSpec db chore now → db' = db) ∧
      (shouldCompleteSpec db chore now →
        ∃ latest ∈ qualifyingCompletions db chore_id
            (periodStart chore.subtasks_period now),
          (∀ sc ∈ qualifyingCompletions db chore_id
              (periodStart chore.subtasks_period now),
            sc.done_at ≤ latest.done_at) ∧
          (updateGuard chore.last_done latest.done_at →
            (∀ ch ∈ db'.chores, ch.id = chore_id →
              ch.last_done = some latest.done_at ∧
              ch.last_done_by = some latest.done_by) ∧
            (∀ ch ∈ db.chores, ch.id ≠ chore_id → ch ∈ db'.chores)) ∧
          (¬updateGuard chore.last_done latest.done_at → db' = db)) := by
  have hcid : chore.id = chore_id := by
    have h := List.find?_some hfind
    simpa using h
  have hspec_iff : shouldCompleteSpec db chore now ↔
      (if chore.subtasks_completion_type = "all"
        then ((qualifyingCompletions db chore_id
            (periodStart chore.subtasks_period now)).map
            (fun sc => sc.subtask_id)).dedup.length =
          (choreSubtaskIds db chore_id).length
        else 0 < ((qualifyingCompletions db chore_id
            (periodStart chore.subtasks_period now)).map
            (fun sc => sc.subtask_id)).dedup.length) := by
    unfold shouldCompleteSpec
    rw [hcid]
    by_cases hty : chore.subtasks_completion_type = "all"
    · rw [if_pos hty, completed_count_all_iff db chore_id
        (periodStart chore.subtasks_period now) hnodup]
      constructor
      · rintro (⟨_, h⟩ | ⟨hno, _⟩)
        · exact h
        · exact absurd hty hno
      · intro h
        exact Or.inl ⟨hty, h⟩
    · rw [if_neg hty, completed_count_any_iff db chore_id
        (periodStart chore.subtasks_period now)]
      constructor
      · rintro (⟨hty', _⟩ | ⟨_, h⟩)
        · exact absurd hty' hty
        · exact h
      · intro h
        exact Or.inr ⟨hty, h⟩
  unfold update_chore_completion_status
  rw [hfind]
  dsimp only
  rw [if_neg (by simp [hhs]), if_neg hne]
  by_cases hsc : shouldCompleteSpec db chore now
  · have hcond := hspec_iff.mp hsc
    rw [if_pos hcond]
    have hqne : qualifyingCompletions db chore_id
        (periodStart chore.subtasks_period now) ≠ [] := by
      by_cases hty : chore.subtasks_completion_type = "all"
      · rw [if_pos hty] at hcond
        intro h
        rw [h] at hcond
        simp at hcond
        exact hne (List.length_eq_zero.mp hcond.symm)
      · rw [if_neg hty] at hcond
        intro h
        rw [h] at hcond
        simp at hcond
    obtain ⟨latest, hmaxeq, hlmem, hlmax⟩ := maxCompletion_spec _ hqne
    rw [hmaxeq]
    dsimp only
    cases hld : chore.last_done with
    | none =>
      rw [if_pos rfl]
      refine ⟨_, rfl, rfl, rfl, rfl, fun h => absurd hsc h, ?_⟩
      intro _
      refine ⟨latest, hlmem, ?_, ?_, ?_⟩
      · intro sc hsc'
        exact (PDateTime.key_le_iff _ _).mpr (hlmax sc hsc')
      · intro _
        constructor
        · intro ch hch hchid
          obtain ⟨ch0, h0, heq⟩ := List.mem_map.mp hch
          by_cases hc : ch0.id = chore_id
          · rw [if_pos hc] at heq
            rw [← heq]
            exact ⟨rfl, rfl⟩
          · rw [if_neg hc] at heq
            rw [← heq] at hchid
            exact absurd hchid hc
        · intro ch hch hnid
          exact List.mem_map.mpr ⟨ch, hch, by rw [if_neg hnid]⟩
      · intro hng
        exact absurd (Or.inl rfl) hng
    | some cur =>
      by_cases hg : cur < latest.done_at ∨ cur.date < latest.done_at.date
      · rw [if_pos (by simp [hg])]
        refine ⟨_, rfl, rfl, rfl, rfl, fun h => absurd hsc h, ?_⟩
        intro _
        refine ⟨latest, hlmem, ?_, ?_, ?_⟩
        · intro sc hsc'
          exact (PDateTime.key_le_iff _ _).mpr (hlmax sc hsc')
        · intro _
          constructor
          · intro ch hch hchid
            obtain ⟨ch0, h0, heq⟩ := List.mem_map.mp hch
            by_cases hc : ch0.id = chore_id
            · rw [if_pos hc] at heq
              rw [← heq]
              exact ⟨rfl, rfl⟩
            · rw [if_neg hc] at heq
              rw [← heq] at hchid
              exact absurd hchid hc
          · intro ch hch hnid
            exact List.mem_map.mpr ⟨ch, hch, by rw [if_neg hnid]⟩
        · intro hng
          exact absurd (Or.inr ⟨cur, rfl, hg⟩) hng
      · rw [if_neg (by simp [hg])]
        refine ⟨db, rfl, rfl, rfl, rfl, fun _ => rfl, ?_⟩
        intro _
        refine ⟨latest, hlmem, ?_, ?_, fun _ => rfl⟩
        · intro sc hsc'
          exact (PDateTime.key_le_iff _ _).mpr (hlmax sc hsc')
        · intro hug
          exfalso
          rcases hug with h | ⟨cdt, hcdt, hlt⟩
          · cases h
          · rw [Option.some.injEq] at hcdt
            rw [← hcdt] at hlt
            exact hg hlt
  · rw [if_neg (fun hcond => hsc (hspec_iff.mpr hcond))]
    exact ⟨db, rfl, rfl, rfl, rfl, fun _ => rfl, fun h => absurd h hsc⟩

/-- C6 witness: the ALL-policy scenario with 3 subtasks of which only 2
are completed in the period: aggregation leaves the snapshot unchanged. -/
theorem C6_subtask_aggregation_witness :
    update_chore_completion_status
      ⟨[⟨"c6w", true, "all", "day", none, none⟩], [],
       [⟨1, "c6w", "a"⟩, ⟨2, "c6w", "b"⟩, ⟨3, "c6w", "c"⟩],
       [⟨1, "Ann", ⟨⟨2024, 6, 15⟩, ⟨8, 0, 0, 0⟩⟩⟩,
        ⟨2, "Ann", ⟨⟨2024, 6, 15⟩, ⟨9, 0, 0, 0⟩⟩⟩]⟩
      "c6w" ⟨⟨2024, 6, 15⟩, ⟨10, 0, 0, 0⟩⟩ =
      .ok ⟨[⟨"c6w", true, "all", "day", none, none⟩], [],
       [⟨1, "c6w", "a"⟩, ⟨2, "c6w", "b"⟩, ⟨3, "c6w", "c"⟩],
       [⟨1, "Ann", ⟨⟨2024, 6, 15⟩, ⟨8, 0, 0, 0⟩⟩⟩,
        ⟨2, "Ann", ⟨⟨2024, 6, 15⟩, ⟨9, 0, 0, 0⟩⟩⟩]⟩ := by
  obtain ⟨db', heq, _, _, _, hnot, _⟩ := C6_subtask_aggregation
    ⟨[⟨"c6w", true, "all", "day", none, none⟩], [],
     [⟨1, "c6w", "a"⟩, ⟨2, "c6w", "b"⟩, ⟨3, "c6w", "c"⟩],
     [⟨1, "Ann", ⟨⟨2024, 6, 15⟩, ⟨8, 0, 0, 0⟩⟩⟩,
      ⟨2, "Ann", ⟨⟨2024, 6, 15⟩, ⟨9, 0, 0, 0⟩⟩⟩]⟩
    "c6w" ⟨⟨2024, 6, 15⟩, ⟨10, 0, 0, 0⟩⟩
    ⟨"c6w", true, "all", "day", none, none⟩ rfl rfl (by decide) (by decide)
  rw [heq, hnot (by decide)]

/-- C6 counterexample: with the ANY policy, a subtask completion at
12:00 updates a task whose current `last_done` is 10:00 of the SAME
calendar date — the latest completion is newer only as an instant, not
by calendar date, yet `last_done`/`last_done_by` change, refuting the
claim's "strictly newer by calendar date, not just by instant" guard. -/
theorem C6_counterexample_same_date_instant_update :
    update_chore_completion_status
      ⟨[⟨"c6", true, "any", "day", some ⟨⟨2024, 6, 15⟩, ⟨10, 0, 0, 0⟩⟩, some "Ann"⟩],
       [], [⟨1, "c6", "sub"⟩],
       [⟨1, "Bob", ⟨⟨2024, 6, 15⟩, ⟨12, 0, 0, 0⟩⟩⟩]⟩
      "c6" ⟨⟨2024, 6, 15⟩, ⟨14, 0, 0, 0⟩⟩ =
      .ok ⟨[⟨"c6", true, "any", "day", some ⟨⟨2024, 6, 15⟩, ⟨12, 0, 0, 0⟩⟩, some "Bob"⟩],
       [], [⟨1, "c6", "sub"⟩],
       [⟨1, "Bob", ⟨⟨2024, 6, 15⟩, ⟨12, 0, 0, 0⟩⟩⟩]⟩ ∧
    (⟨⟨2024, 6, 15⟩, ⟨10, 0, 0, 0⟩⟩ : PDateTime).date =
      (⟨⟨2024, 6, 15⟩, ⟨12, 0, 0, 0⟩⟩ : PDateTime).date :=
  ⟨rfl, rfl⟩

/-- C8: resetting an existing chore reports success, nulls
`last_done`/`last_done_by` on that chore's row while leaving every
other row unchanged, removes exactly its history entries dated today
(every entry of another chore or another day survives, and nothing
outside the original history appears), deletes exactly today's
completions of its subtasks when it has subtasks and none otherwise,
and leaves the subtasks table unchanged. -/
theorem C8_reset_same_day_only (db : Database) (cid : String) (now : PDateTime)
    (chore : ChoreRow)
    (hfind : db.chores.find? (fun ch => ch.id == cid) = some chore) :
    (reset_chore db cid now).2 = true ∧
    (∀ ch ∈ (reset_chore db cid now).1.chores, ch.id = cid →
      ch.last_done = none ∧ ch.last_done_by = none) ∧
    (∀ ch ∈ db.chores, ch.id ≠ cid → ch ∈ (reset_chore db cid now).1.chores) ∧
    (reset_chore db cid now).1.history =
      db.history.filter
        (fun h => ¬(h.chore_id = cid ∧ h.done_at.date = now.date)) ∧
    (∀ h ∈ db.history, ¬(h.chore_id = cid ∧ h.done_at.date = now.date) →
      h ∈ (reset_chore db cid now).1.history) ∧
    (∀ h ∈ (reset_chore db cid now).1.history,
      h ∈ db.history ∧ ¬(h.chore_id = cid ∧ h.done_at.date = now.date)) ∧
    (chore.has_subtasks = false →
      (reset_chore db cid now).1.subtask_completions = db.subtask_completions) ∧
    (chore.has_subtasks = true →
      (reset_chore db cid now).1.subtask_completions =
        db.subtask_completions.filter (fun sc =>
          ¬(db.subtasks.any (fun st => st.chore_id = cid ∧ st.id = sc.subtask_id) ∧
            sc.done_at.date = now.date))) ∧
    (reset_chore db cid now).1.subtasks = db.subtasks := by
  have hflag : (reset_chore db cid now).2 = true := by
    unfold reset_chore
    rw [hfind]
  have hchores : (reset_chore db cid now).1.chores =
      db.chores.map (fun ch => if ch.id = cid then
        { ch with last_done := none, last_done_by := none } else ch) := by
    unfold reset_chore
    rw [hfind]
    dsimp only
    cases hhs : chore.has_subtasks
    · rw [if_neg (by simp)]
    · rw [if_pos rfl]
      rfl
  have hhist : (reset_chore db cid now).1.history =
      db.history.filter
        (fun h => ¬(h.chore_id = cid ∧ h.done_at.date = now.date)) := by
    unfold reset_chore
    rw [hfind]
    dsimp only
    cases hhs : chore.has_subtasks
    · rw [if_neg (by simp)]
    · rw [if_pos rfl]
      rfl
  have hsubs : (reset_chore db cid now).1.subtasks = db.subtasks := by
    unfold reset_chore
    rw [hfind]
    dsimp only
    cases hhs : chore.has_subtasks
    · rw [if_neg (by simp)]
    · rw [if_pos rfl]
      rfl
  refine ⟨hflag, ?_, ?_, hhist, ?_, ?_, ?_, ?_, hsubs⟩
  · intro ch hch hid
    rw [hchores] at hch
    obtain ⟨ch0, hch0, heq⟩ := List.mem_map.mp hch
    by_cases hc : ch0.id = cid
    · rw [if_pos hc] at heq
      rw [← heq]
      exact ⟨rfl, rfl⟩
    · rw [if_neg hc] at heq
      rw [← heq] at hid
      exact absurd hid hc
  · intro ch hch hne
    rw [hchores]
    exact List.mem_map.mpr ⟨ch, hch, by rw [if_neg hne]⟩
  · intro h hh hnot
    rw [hhist]
    rw [List.mem_filter]
    refine ⟨hh, ?_⟩
    simp only [decide_eq_true_eq]
    exact hnot
  · intro h hh
    rw [hhist, List.mem_filter] at hh
    obtain ⟨hmem, hcond⟩ := hh
    rw [decide_eq_true_eq] at hcond
    exact ⟨hmem, hcond⟩
  · intro hhs
    unfold reset_chore
    rw [hfind]
    dsimp only
    rw [if_neg (by simp [hhs])]
  · intro hhs
    unfold reset_chore
    rw [hfind]
    dsimp only
    rw [if_pos hhs]
    rfl

/-- C8 witness: a chore completed yesterday and today, then reset:
success, yesterday's history entry survives as the only one, and the
chore row's `last_done` is cleared. -/
theorem C8_reset_same_day_only_witness :
    (reset_chore
      ⟨[⟨"c8", false, "all", "week", some ⟨⟨2024, 6, 15⟩, ⟨9, 0, 0, 0⟩⟩, some "Ann"⟩],
       [⟨"c8", "Ann", ⟨⟨2024, 6, 14⟩, ⟨20, 0, 0, 0⟩⟩⟩,
        ⟨"c8", "Ann", ⟨⟨2024, 6, 15⟩, ⟨9, 0, 0, 0⟩⟩⟩], [], []⟩
      "c8" ⟨⟨2024, 6, 15⟩, ⟨21, 0, 0, 0⟩⟩).2 = true ∧
    (⟨"c8", "Ann", ⟨⟨2024, 6, 14⟩, ⟨20, 0, 0, 0⟩⟩⟩ : HistoryEntry) ∈
      (reset_chore
        ⟨[⟨"c8", false, "all", "week", some ⟨⟨2024, 6, 15⟩, ⟨9, 0, 0, 0⟩⟩, some "Ann"⟩],
         [⟨"c8", "Ann", ⟨⟨2024, 6, 14⟩, ⟨20, 0, 0, 0⟩⟩⟩,
          ⟨"c8", "Ann", ⟨⟨2024, 6, 15⟩, ⟨9, 0, 0, 0⟩⟩⟩], [], []⟩
        "c8" ⟨⟨2024, 6, 15⟩, ⟨21, 0, 0, 0⟩⟩).1.history ∧
    (reset_chore
      ⟨[⟨"c8", false, "all", "week", some ⟨⟨2024, 6, 15⟩, ⟨9, 0, 0, 0⟩⟩, some "Ann"⟩],
       [⟨"c8", "Ann", ⟨⟨2024, 6, 14⟩, ⟨20, 0, 0, 0⟩⟩⟩,
        ⟨"c8", "Ann", ⟨⟨2024, 6, 15⟩, ⟨9, 0, 0, 0⟩⟩⟩], [], []⟩
      "c8" ⟨⟨2024, 6, 15⟩, ⟨21, 0, 0, 0⟩⟩).1.history =
      [⟨"c8", "Ann", ⟨⟨2024, 6, 14⟩, ⟨20, 0, 0, 0⟩⟩⟩] ∧
    (∀ ch ∈ (reset_chore
      ⟨[⟨"c8", false, "all", "week", some ⟨⟨2024, 6, 15⟩, ⟨9, 0, 0, 0⟩⟩, some "Ann"⟩],
       [⟨"c8", "Ann", ⟨⟨2024, 6, 14⟩, ⟨20, 0, 0, 0⟩⟩⟩,
        ⟨"c8", "Ann", ⟨⟨2024, 6, 15⟩, ⟨9, 0, 0, 0⟩⟩⟩], [], []⟩
      "c8" ⟨⟨2024, 6, 15⟩, ⟨21, 0, 0, 0⟩⟩).1.chores, ch.id = "c8" →
      ch.last_done = none ∧ ch.last_done_by = none) := by
  have h := C8_reset_same_day_only
    ⟨[⟨"c8", false, "all", "week", some ⟨⟨2024, 6, 15⟩, ⟨9, 0, 0, 0⟩⟩, some "Ann"⟩],
     [⟨"c8", "Ann", ⟨⟨2024, 6, 14⟩, ⟨20, 0, 0, 0⟩⟩⟩,
      ⟨"c8", "Ann", ⟨⟨2024, 6, 15⟩, ⟨9, 0, 0, 0⟩⟩⟩], [], []⟩
    "c8" ⟨⟨2024, 6, 15⟩, ⟨21, 0, 0, 0⟩⟩
    ⟨"c8", false, "all", "week", some ⟨⟨2024, 6, 15⟩, ⟨9, 0, 0, 0⟩⟩, some "Ann"⟩ rfl
  refine ⟨h.1, ?_, rfl, h.2.1⟩
  exact h.2.2.2.2.1 _ (by simp) (by decide)

/-- C10: `parse_date` accepts the three documented shapes and falls
back to `now` on `None`, empty, or plain garbage input — but it is NOT
total: on an input containing `T` whose leading ten characters match
the date regex without denoting a valid date (e.g. month 13),
`fromisoformat` fails and the recovery `strptime` call inside the
`except ValueError` handler (date_utils.py line 32) raises an uncaught
`ValueError` instead of falling back to `now`. -/
theorem C10_parse_date_totality :
    (∀ now, parseDate (some "2024-13-01T00:00:00") now = .error ()) ∧
    (∀ now, parseDate (some "2024-06-15T12:30:45") now =
      .ok ⟨⟨2024, 6, 15⟩, ⟨12, 30, 45, 0⟩⟩) ∧
    (∀ now, parseDate (some "2024-06-15T12:30:45.123456") now =
      .ok ⟨⟨2024, 6, 15⟩, ⟨12, 30, 45, 123456⟩⟩) ∧
    (∀ now, parseDate (some "2024-06-15 12:30:45") now =
      .ok ⟨⟨2024, 6, 15⟩, ⟨12, 30, 45, 0⟩⟩) ∧
    (∀ now, parseDate (some "2024-06-15") now =
      .ok ⟨⟨2024, 6, 15⟩, PTime.midnight⟩) ∧
    (∀ now, parseDate none now = .ok now) ∧
    (∀ now, parseDate (some "") now = .ok now) ∧
    (∀ now, parseDate (some "not a date") now = .ok now) := by
  refine ⟨?_, ?_, ?_, ?_, ?_, ?_, ?_, ?_⟩ <;> intro now <;> rfl

/-- C1 (amended): for every task with `last_done = null`,
`calculate_next_due_date` returns `now`'s date and `is_overdue` returns
true regardless of `frequency_type`; `is_due_today` returns true
provided the task passes the classifier's defensive guard (nonempty
`chore_id` and a name that is not all whitespace). -/
theorem C1_never_completed_always_due (c : Chore) (now : PDateTime)
    (h : c.last_done = none) :
    FrequencyCalculator.calculate_next_due_date c now = .ok now.date ∧
    FrequencyCalculator.is_overdue c now = .ok true ∧
    (c.chore_id ≠ "" → pyStrip c.name ≠ "" →
      FrequencyCalculator.is_due_today c now = .ok true) := by
  refine ⟨?_, ?_, ?_⟩
  · unfold FrequencyCalculator.calculate_next_due_date
    rw [h]
  · unfold FrequencyCalculator.is_overdue
    rw [h]
  · intro h1 h2
    unfold FrequencyCalculator.is_due_today
    rw [if_neg (by simp [h1, h2]), h]

/-- C1 witness: the amended statement instantiated at a concrete
never-completed weekly task. -/
theorem C1_never_completed_always_due_witness :
    FrequencyCalculator.calculate_next_due_date
      ⟨"w1", "Stofzuigen", "Wekelijks", 7, 1, -1, -1, none, none, "week", none, none⟩
      ⟨⟨2024, 6, 15⟩, ⟨12, 0, 0, 0⟩⟩ = .ok ⟨2024, 6, 15⟩ ∧
    FrequencyCalculator.is_overdue
      ⟨"w1", "Stofzuigen", "Wekelijks", 7, 1, -1, -1, none, none, "week", none, none⟩
      ⟨⟨2024, 6, 15⟩, ⟨12, 0, 0, 0⟩⟩ = .ok true ∧
    FrequencyCalculator.is_due_today
      ⟨"w1", "Stofzuigen", "Wekelijks", 7, 1, -1, -1, none, none, "week", none, none⟩
      ⟨⟨2024, 6, 15⟩, ⟨12, 0, 0, 0⟩⟩ = .ok true := by
  have h := C1_never_completed_always_due
    ⟨"w1", "Stofzuigen", "Wekelijks", 7, 1, -1, -1, none, none, "week", none, none⟩
    ⟨⟨2024, 6, 15⟩, ⟨12, 0, 0, 0⟩⟩ rfl
  exact ⟨h.1, h.2.1, h.2.2 (by decide) (by decide)⟩

/-- C1 counterexample: a never-completed task whose name is all
whitespace has `is_due_today = false`, so the claim's unconditional
"is_due_today returns true" fails on the code. -/
theorem C1_counterexample_blank_name :
    (⟨"c1", " ", "Wekelijks", 7, 1, -1, -1, none, none, "week", none, none⟩ :
      Chore).last_done = none ∧
    FrequencyCalculator.is_due_today
      ⟨"c1", " ", "Wekelijks", 7, 1, -1, -1, none, none, "week", none, none⟩
      ⟨⟨2024, 6, 15⟩, ⟨12, 0, 0, 0⟩⟩ = .ok false := by
  exact ⟨rfl, rfl⟩

/-- C2: a task whose `last_done` falls on today's calendar date (at any
time of day) is never counted among the due/actionable tasks by the
sensor's classification: `countsAsDueToday` cannot return true. -/
theorem C2_completed_today_not_actionable (fuel : Nat) (c : Chore)
    (now ld : PDateTime) (h : c.last_done = some ld)
    (hdate : ld.date = now.date) :
    Sensor.countsAsDueToday fuel c now ≠ .ok true := by
  unfold Sensor.countsAsDueToday
  have hct : Sensor.completedToday c now = true := by
    unfold Sensor.completedToday
    rw [h]
    simp [hdate]
  rw [hct]
  cases hflag : Sensor.isDueTodayFlag fuel c now with
  | error e => simp
  | ok b => simp

/-- C2 witness: a daily task completed earlier today is not counted. -/
theorem C2_completed_today_not_actionable_witness :
    Sensor.countsAsDueToday 10
      ⟨"d1", "Afwassen", "Dagelijks", 1, 1, -1, -1, none, none, "week",
        some ⟨⟨2024, 6, 15⟩, ⟨8, 30, 0, 0⟩⟩, some "Cas"⟩
      ⟨⟨2024, 6, 15⟩, ⟨20, 0, 0, 0⟩⟩ ≠ .ok true :=
  C2_completed_today_not_actionable 10
    ⟨"d1", "Afwassen", "Dagelijks", 1, 1, -1, -1, none, none, "week",
      some ⟨⟨2024, 6, 15⟩, ⟨8, 30, 0, 0⟩⟩, some "Cas"⟩
    ⟨⟨2024, 6, 15⟩, ⟨20, 0, 0, 0⟩⟩ ⟨⟨2024, 6, 15⟩, ⟨8, 30, 0, 0⟩⟩ rfl rfl

/-- C3 (amended): for every Monthly task with `monthday` in 1..31 and a
valid `last_done` date, `calculate_next_due_date` returns the clamped
occurrence of that day-of-month in `last_done`'s month when
`last_done.day < monthday` and in the following month otherwise: a valid
date, never before `last_done`, minimal among clamped occurrences
strictly after `last_done`, and equal to `last_done` itself exactly when
`monthday` exceeds the length of `last_done`'s month and `last_done` is
its last day (so "strictly after" fails only in that clamp-collision
case); `monthday=31` with `last_done=2024-01-31` yields 2024-02-29. -/
theorem C3_monthly_monthday_next_occurrence (c : Chore) (now ld : PDateTime)
    (hld : c.last_done = some ld) (hft : c.frequency_type = "Maandelijks")
    (hmd1 : 1 ≤ c.monthday) (hmd31 : c.monthday ≤ 31) (hv : ld.date.valid) :
    FrequencyCalculator.calculate_next_due_date c now =
      .ok (get_next_occurrence_of_monthday c.monthday ld.date) ∧
    (get_next_occurrence_of_monthday c.monthday ld.date).valid ∧
    ld.date ≤ get_next_occurrence_of_monthday c.monthday ld.date ∧
    (get_next_occurrence_of_monthday c.monthday ld.date = ld.date ↔
      ((ld.date.day : Int) < c.monthday ∧
        ld.date.day = daysInMonth ld.date.year ld.date.month)) ∧
    isClampedOccurrence c.monthday
      (get_next_occurrence_of_monthday c.monthday ld.date) ∧
    (∀ o, isClampedOccurrence c.monthday o → ld.date < o →
      get_next_occurrence_of_monthday c.monthday ld.date ≤ o) := by
  have hspec := monthday_occurrence_spec c.monthday ld.date hv hmd1 hmd31
  refine ⟨?_, hspec.1, hspec.2.1, hspec.2.2.1, hspec.2.2.2.1, hspec.2.2.2.2⟩
  unfold FrequencyCalculator.calculate_next_due_date
  rw [hld]
  dsimp only
  rw [if_neg (by rw [hft]; decide), if_neg (by rw [hft]; decide),
    if_neg (by rw [hft]; decide), if_pos hft]
  unfold FrequencyCalculator._calculate_monthly
  rw [if_pos (by omega)]

/-- C3 witness: the amended statement at `monthday=31`,
`last_done=2024-01-31`, whose next occurrence evaluates to 2024-02-29. -/
theorem C3_monthly_monthday_next_occurrence_witness :
    FrequencyCalculator.calculate_next_due_date
      ⟨"m1", "Ramen lappen", "Maandelijks", 30, 1, -1, 31, none, none, "week",
        some ⟨⟨2024, 1, 31⟩, ⟨18, 0, 0, 0⟩⟩, some "Dana"⟩
      ⟨⟨2024, 2, 1⟩, ⟨9, 0, 0, 0⟩⟩ =
      .ok (get_next_occurrence_of_monthday 31 ⟨2024, 1, 31⟩) ∧
    get_next_occurrence_of_monthday 31 ⟨2024, 1, 31⟩ = ⟨2024, 2, 29⟩ := by
  have h := C3_monthly_monthday_next_occurrence
    ⟨"m1", "Ramen lappen", "Maandelijks", 30, 1, -1, 31, none, none, "week",
      some ⟨⟨2024, 1, 31⟩, ⟨18, 0, 0, 0⟩⟩, some "Dana"⟩
    ⟨⟨2024, 2, 1⟩, ⟨9, 0, 0, 0⟩⟩ ⟨⟨2024, 1, 31⟩, ⟨18, 0, 0, 0⟩⟩
    rfl rfl (by decide) (by decide) (by decide)
  exact ⟨h.1, rfl⟩

/-- C3 counterexample: a Monthly task with `monthday=31` and
`last_done=2024-02-29` gets next due date 2024-02-29 — the very date of
`last_done`, not a date strictly after it as the claim states. -/
theorem C3_counterexample_clamp_collision :
    FrequencyCalculator.calculate_next_due_date
      ⟨"m2", "Kelder vegen", "Maandelijks", 30, 1, -1, 31, none, none, "week",
        some ⟨⟨2024, 2, 29⟩, ⟨10, 0, 0, 0⟩⟩, some "Eef"⟩
      ⟨⟨2024, 3, 1⟩, ⟨9, 0, 0, 0⟩⟩ = .ok ⟨2024, 2, 29⟩ ∧
    (⟨"m2", "Kelder vegen", "Maandelijks", 30, 1, -1, 31, none, none, "week",
        some ⟨⟨2024, 2, 29⟩, ⟨10, 0, 0, 0⟩⟩, some "Eef"⟩ : Chore).last_done =
      some ⟨⟨2024, 2, 29⟩, ⟨10, 0, 0, 0⟩⟩ :=
  ⟨rfl, rfl⟩

/-- C4: on a yearly task last done on leap day 2024-02-29, the
`FrequencyCalculator` copy returns 2025-02-28 as the spec states, but
the sensor's own `Jaarlijks` branch (sensor.py line 657) constructs
`date(2025, 2, 29)` with no `try/except` and raises `ValueError`, so
"the computation never raises" fails on that code path. -/
theorem C4_yearly_leap_day_divergence :
    (∀ now, FrequencyCalculator.calculate_next_due_date yearlyLeapChore now =
      .ok ⟨2025, 2, 28⟩) ∧
    (∀ fuel now, Sensor.calculate_next_due_date fuel yearlyLeapChore now =
      .error .valueError) := by
  constructor
  · intro now; rfl
  · intro fuel now; rfl

/-- C5: a daily task whose `active_days` maps all seven weekday names to
false: the `FrequencyCalculator` copy stops after 8 failed checks and
returns `last_done + 9` days, while the sensor's `while True:` loop
(sensor.py lines 446-457) never terminates — its fuel-indexed model
fails for every amount of fuel. -/
theorem C5_daily_all_inactive_divergence :
    (∀ now, FrequencyCalculator.calculate_next_due_date dailyAllFalseChore now =
      .ok ((PDate.mk 2024 6 10).addDays 9)) ∧
    (∀ fuel now, Sensor.calculate_next_due_date fuel dailyAllFalseChore now =
      .error .fuelExhausted) := by
  constructor
  · intro now; rfl
  · intro fuel now
    show Sensor.activeDayLoop allFalseDays fuel ((PDate.mk 2024 6 10).addDays 1) =
      .error .fuelExhausted
    exact sensor_activeDayLoop_allFalse fuel _

/-- C7 (amended): provided every completion of the person is dated on or
before today (so the 30-row `LIMIT` never drops a day of the 29-day
window), the streak is 0 when the person completed nothing today, and
otherwise 1 plus the number of consecutive prior days (walking backward
over today-1 .. today-29) on which the person either completed something
or had no task with `assigned_to = person` whose `last_done` falls
EXACTLY on that day — the code's had-tasks test (sensor.py line 329) is
`date(last_done) = prev_date`, not the claim's "on/before". -/
theorem C7_streak_characterization (history : List StreakHistoryRow)
    (chores : List StreakChoreRow) (person : String) (today : Int)
    (hle : ∀ h ∈ history, h.done_by = person → h.done_day ≤ today) :
    streak history chores person today =
      if completedOnDay history person today then
        1 + specWalkLen history chores person today
      else 0 := by
  have hmemL : ∀ d : Int,
      (d ∈ (history.filter (fun h => h.done_by = person)).map
        (fun h => h.done_day)) ↔ completedOnDay history person d := by
    intro d
    simp [completedOnDay, List.mem_map, List.mem_filter]
    constructor
    · rintro ⟨h, ⟨hh, hp⟩, rfl⟩
      exact ⟨h, hh, hp, rfl⟩
    · rintro ⟨h, hh, hp, rfl⟩
      exact ⟨h, ⟨hh, hp⟩, rfl⟩
  have hbound : ∀ x ∈ ((history.filter (fun h => h.done_by = person)).map
      (fun h => h.done_day)).foldr insertDescDedup [], x ≤ today := by
    intro x hx
    rw [foldr_insertDescDedup_mem] at hx
    obtain ⟨h, hh, hp, rfl⟩ := (hmemL x).mp hx
    exact hle h hh hp
  have hmem_dates : ∀ d : Int, today - 29 ≤ d →
      (d ∈ streakDates history person ↔ completedOnDay history person d) := by
    intro d hd29
    unfold streakDates
    constructor
    · intro hmem
      have := List.mem_of_mem_take hmem
      rw [foldr_insertDescDedup_mem] at this
      exact (hmemL d).mp this
    · intro hc
      have hdf : d ∈ ((history.filter (fun h => h.done_by = person)).map
          (fun h => h.done_day)).foldr insertDescDedup [] := by
        rw [foldr_insertDescDedup_mem]
        exact (hmemL d).mpr hc
      exact sorted_bounded_mem_take 30 _ today
        (foldr_insertDescDedup_sorted _) hbound d hdf (by omega)
  by_cases hc : completedOnDay history person today
  · rw [if_pos hc]
    have htoday : today ∈ streakDates history person :=
      (hmem_dates today (by omega)).mpr hc
    have hnil : streakDates history person ≠ [] :=
      List.ne_nil_of_mem htoday
    unfold streak
    rw [if_neg hnil, if_pos htoday]
    rw [streakWalk_spec history (streakDates history person) chores person today
      (fun j hj1 hj29 => hmem_dates (today - (j : Int)) (by omega))
      29 1 1 (by omega) (by omega)]
    rfl
  · rw [if_neg hc]
    have htoday : today ∉ streakDates history person := by
      intro hmem
      exact hc ((hmem_dates today (by omega)).mp hmem)
    unfold streak
    by_cases hnil : streakDates history person = []
    · rw [if_pos hnil]
    · rw [if_neg hnil, if_neg htoday]

/-- C7 witness: one completion today, no chore rows; the streak is 1 and
the characterisation holds with its hypothesis discharged. -/
theorem C7_streak_characterization_witness :
    (∀ h ∈ [({ done_by := "Bob", done_day := 50 } : StreakHistoryRow)],
      h.done_by = "Bob" → h.done_day ≤ 50) ∧
    streak [{ done_by := "Bob", done_day := 50 }] [] "Bob" 50 =
      (if completedOnDay [{ done_by := "Bob", done_day := 50 }] "Bob" 50 then
        1 + specWalkLen [{ done_by := "Bob", done_day := 50 }] [] "Bob" 50
      else 0) :=
  ⟨by decide, C7_streak_characterization _ _ _ _ (by decide)⟩

/-- C7 counterexample to the claim's "on/before" wording: Ann completed
a task on day 100 (today) and her one assigned chore has
`date(last_done) = 97`.  The code's walk sees no chore with `last_done`
equal to day 99 or 98, keeps incrementing, and stops only at day 97,
giving streak 3; with the claim's on-or-before test day 99 already
counts as "had assigned tasks, completed nothing", giving streak 1. -/
theorem C7_counterexample_on_or_before :
    streak [{ done_by := "Ann", done_day := 100 }]
      [{ assigned_to := "Ann", last_done_day := some 97 }] "Ann" 100 = 3 ∧
    claimStreak [{ done_by := "Ann", done_day := 100 }]
      [{ assigned_to := "Ann", last_done_day := some 97 }] "Ann" 100 = 1 := by
  constructor <;> rfl

end ChoresManager
